import Mathlib

/-!
Verification of the entity/component storage engine of Mesozoic-Genesis
(src/Core/ECS: MemoryChunk.h, Archetype.h, EntityManager.h, ComponentArray.h).

The C++ code is shallowly embedded: machine integers become Nat (the code
never overflows its uint16/uint32 fields on the paths modelled here, as noted
inline), raw byte buffers become functions Nat → Nat, std::queue becomes a
list (front = head, push = append), unordered_map becomes an association
list, and sentinel returns (size_t(-1), nullptr) become Option.
-/

/-- MemoryChunk.h: 16KB chunk size. -/
def CHUNK_SIZE : Nat := 16 * 1024

/-- sizeof(ChunkHeader) = 8 : uint32_t archetypeId + uint16_t count +
uint16_t capacity, with no padding. -/
def CHUNK_HEADER_SIZE : Nat := 8

/-- sizeof(MemoryChunk::data) = CHUNK_SIZE - sizeof(ChunkHeader). -/
def CHUNK_DATA_SIZE : Nat := CHUNK_SIZE - CHUNK_HEADER_SIZE

/-- EntityManager.h: MAX_ENTITIES = 100000. -/
def MAX_ENTITIES : Nat := 100000

/-- EntityManager.h: INVALID_ENTITY = static_cast of -1 to uint32_t. -/
def INVALID_ENTITY : Nat := 4294967295

/-- Archetype.h: ComponentInfo { ComponentID id; size_t size; size_t alignment }. -/
structure ComponentInfo where
  id : Nat
  size : Nat
  alignment : Nat
deriving DecidableEq, Repr

/-- MemoryChunk.h: ChunkHeader. -/
structure ChunkHeader where
  archetypeId : Nat
  count : Nat
  capacity : Nat
deriving DecidableEq, Repr

/-- MemoryChunk.h: MemoryChunk.  The raw byte buffer uint8_t data[...] is
modelled as a total function from byte index to byte value; on the states
reached by the manager all accesses stay below CHUNK_DATA_SIZE. -/
structure MemoryChunk where
  header : ChunkHeader
  data : Nat → Nat
  entityIds : List Nat

/-- The MemoryChunk constructor: count = 0, capacity = cap, ids empty.
The C++ leaves data uninitialized; we model it as all zero bytes. -/
def mkMemoryChunk (archId cap : Nat) : MemoryChunk :=
  { header := { archetypeId := archId, count := 0, capacity := cap },
    data := fun _ => 0,
    entityIds := [] }

/-- Out-of-bounds chunk access placeholder (the C++ would be undefined
behaviour there; the manager never reaches it on well-formed states). -/
def emptyChunk : MemoryChunk := mkMemoryChunk 0 0

/-- Archetype.h: the Archetype class.  chunks is the owned chunk pool. -/
structure Archetype where
  id : Nat
  components : List ComponentInfo
  chunks : List MemoryChunk
  entitySize : Nat
  entitiesPerChunk : Nat

/-- The Archetype constructor: entitySize = sum of component sizes,
entitiesPerChunk = sizeof(MemoryChunk::data) / entitySize.  Nat division
by zero yields 0 where the C++ would be undefined (empty schema); the
uint16_t cast never truncates because the quotient is at most
CHUNK_DATA_SIZE < 2^16. -/
def mkArchetype (id : Nat) (comps : List ComponentInfo) : Archetype :=
  let totalSize := (comps.map (fun c => c.size)).sum
  { id := id, components := comps, chunks := [],
    entitySize := totalSize,
    entitiesPerChunk := CHUNK_DATA_SIZE / totalSize }

/-- Placeholder archetype for out-of-range accesses (undefined behaviour in
the C++; unreachable from the guarded paths). -/
def emptyArchetype : Archetype := mkArchetype 0 []

/-- Archetype::GetComponentOffset walk: scan components in order, on the
first id match return offset + size * index, otherwise advance the running
offset by size * entitiesPerChunk.  The size_t(-1) miss is Option.none. -/
def compOffsetAux (epc compId idx : Nat) : List ComponentInfo → Nat → Option Nat
  | [], _ => none
  | c :: rest, off =>
    if c.id = compId then some (off + c.size * idx)
    else compOffsetAux epc compId idx rest (off + c.size * epc)

/-- Archetype::GetComponentOffset(compId, index). -/
def Archetype.GetComponentOffset (a : Archetype) (compId idx : Nat) : Option Nat :=
  compOffsetAux a.entitiesPerChunk compId idx a.components 0

/-- EntityManager.h: EntityLocation. -/
structure EntityLocation where
  archetypeId : Nat
  chunkIndex : Nat
  indexInChunk : Nat
  valid : Bool
deriving DecidableEq, Repr

/-- The value std::vector.resize value-initializes EntityLocation to. -/
def invalidLocation : EntityLocation :=
  { archetypeId := 0, chunkIndex := 0, indexInChunk := 0, valid := false }

/-- EntityManager.h: the EntityManager state.  availableEntities is the
std::queue (head = front, append = push); signatureToArchetype is the
unordered_map as an association list. -/
structure EntityManager where
  availableEntities : List Nat
  livingEntityCount : Nat
  archetypes : List Archetype
  signatureToArchetype : List (Nat × Nat)
  entityLocations : List EntityLocation

/-- EntityManager::GetLocation (unchecked vector index in the C++; the
location table always has length MAX_ENTITIES). -/
def EntityManager.GetLocation (s : EntityManager) (e : Nat) : EntityLocation :=
  s.entityLocations.getD e invalidLocation

/-- archetypes[aid] access. -/
def getArch (s : EntityManager) (aid : Nat) : Archetype :=
  s.archetypes.getD aid emptyArchetype

/-- archetypes[aid]->chunks[cid] access. -/
def chunkAt (s : EntityManager) (aid cid : Nat) : MemoryChunk :=
  (getArch s aid).chunks.getD cid emptyChunk

/-- Replace archetypes[aid]->chunks[cid] (in-place mutation in the C++). -/
def setChunk (s : EntityManager) (aid cid : Nat) (c : MemoryChunk) : EntityManager :=
  let arch := getArch s aid
  { s with archetypes := s.archetypes.set aid { arch with chunks := arch.chunks.set cid c } }

/-- EntityManager::ComputeSignature: XOR of id * 2654435761 over the list.
Both factors are below 2^32 so the uint64_t product never wraps; XOR of
values below 2^64 stays below 2^64. -/
def EntityManager.ComputeSignature (comps : List ComponentInfo) : Nat :=
  comps.foldl (fun sig c => sig ^^^ (c.id * 2654435761)) 0

/-- EntityManager::AllocateChunk: append a fresh chunk with capacity
entitiesPerChunk to the archetype; the new chunk index is the old pool size. -/
def EntityManager.AllocateChunk (s : EntityManager) (aid : Nat) : EntityManager :=
  let arch := getArch s aid
  { s with archetypes :=
      s.archetypes.set aid { arch with chunks := arch.chunks ++ [mkMemoryChunk aid arch.entitiesPerChunk] } }

/-- EntityManager::RegisterArchetype: dedup by signature, else create the
archetype (id = current archetype count) and eagerly allocate its first
chunk. -/
def EntityManager.RegisterArchetype (s : EntityManager) (comps : List ComponentInfo) :
    EntityManager × Nat :=
  let sig := EntityManager.ComputeSignature comps
  match s.signatureToArchetype.lookup sig with
  | some archId => (s, archId)
  | none =>
    let archId := s.archetypes.length
    let s1 := { s with
      archetypes := s.archetypes ++ [mkArchetype archId comps],
      signatureToArchetype := (sig, archId) :: s.signatureToArchetype }
    (s1.AllocateChunk archId, archId)

/-- The CreateEntity chunk scan: first chunk with count < capacity. -/
def findFreeChunk : List MemoryChunk → Option Nat
  | [] => none
  | c :: rest =>
    if c.header.count < c.header.capacity then some 0
    else (findFreeChunk rest).map (fun i => i + 1)

/-- EntityManager::CreateEntity.  Returns (new state, entity id); both
failure paths return INVALID_ENTITY with the state untouched (the C++
signals NoFreeEntities and InvalidArchetype with the same sentinel). -/
def EntityManager.CreateEntity (s : EntityManager) (archetypeId : Nat) :
    EntityManager × Nat :=
  if s.availableEntities = [] then (s, INVALID_ENTITY)
  else if s.archetypes.length ≤ archetypeId then (s, INVALID_ENTITY)
  else
    let id := s.availableEntities.headD 0
    let s1 := { s with availableEntities := s.availableEntities.tail,
                       livingEntityCount := s.livingEntityCount + 1 }
    let arch := getArch s1 archetypeId
    let found := findFreeChunk arch.chunks
    let chunkIdx := match found with
      | some i => i
      | none => arch.chunks.length
    let s2 := match found with
      | some _ => s1
      | none => s1.AllocateChunk archetypeId
    let chunk := chunkAt s2 archetypeId chunkIdx
    let indexInChunk := chunk.header.count
    let s3 := setChunk s2 archetypeId chunkIdx
      { chunk with header.count := chunk.header.count + 1,
                   entityIds := chunk.entityIds ++ [id] }
    let newLoc : EntityLocation :=
      { archetypeId := archetypeId, chunkIndex := chunkIdx,
        indexInChunk := indexInChunk, valid := true }
    let s4 := { s3 with entityLocations := s3.entityLocations.set id newLoc }
    (s4, id)

/-- One memcpy of the DestroyEntity swap loop: copy comp.size bytes of
component compId from slot src to slot dst (the two regions never overlap
because src ≠ dst). -/
def copyStep (a : Archetype) (src dst : Nat) (d : Nat → Nat) (c : ComponentInfo) :
    Nat → Nat :=
  match a.GetComponentOffset c.id src, a.GetComponentOffset c.id dst with
  | some srcOff, some dstOff =>
      fun i => if dstOff ≤ i ∧ i < dstOff + c.size then d (i - dstOff + srcOff) else d i
  | _, _ => d

/-- The whole component-copy loop of DestroyEntity. -/
def copyComponents (a : Archetype) (src dst : Nat) (d : Nat → Nat) : Nat → Nat :=
  a.components.foldl (copyStep a src dst) d

/-- EntityManager::DestroyEntity: silent no-op on an out-of-range or invalid
identity; otherwise swap-remove within the owning chunk, invalidate the
location and recycle the identity (queue push = append). -/
def EntityManager.DestroyEntity (s : EntityManager) (entity : Nat) : EntityManager :=
  if MAX_ENTITIES ≤ entity then s
  else if (s.GetLocation entity).valid = false then s
  else
    let loc := s.GetLocation entity
    let arch := getArch s loc.archetypeId
    let chunk := arch.chunks.getD loc.chunkIndex emptyChunk
    let lastIndex := chunk.header.count - 1
    let step :=
      if loc.indexInChunk = lastIndex then (chunk, s)
      else
        let movedEntity := chunk.entityIds.getD lastIndex 0
        let movedLoc := s.GetLocation movedEntity
        let movedLoc1 := { movedLoc with indexInChunk := loc.indexInChunk }
        ({ chunk with data := copyComponents arch lastIndex loc.indexInChunk chunk.data,
                      entityIds := chunk.entityIds.set loc.indexInChunk movedEntity },
         { s with entityLocations := s.entityLocations.set movedEntity movedLoc1 })
    let chunk1 := step.1
    let s1 := step.2
    let chunk2 := { chunk1 with
      header.count := chunk1.header.count - 1,
      entityIds := chunk1.entityIds.dropLast }
    let s2 := setChunk s1 loc.archetypeId loc.chunkIndex chunk2
    let deadLoc := { s2.GetLocation entity with valid := false }
    { s2 with
      entityLocations := s2.entityLocations.set entity deadLoc,
      availableEntities := s2.availableEntities ++ [entity],
      livingEntityCount := s2.livingEntityCount - 1 }

/-- A raw pointer into a chunk byte buffer: the buffer plus the byte offset. -/
structure BytePtr where
  mem : Nat → Nat
  off : Nat

/-- EntityManager::GetComponentData: nullptr (none) on invalid entity or
absent component, else a pointer to chunk->data[offset]. -/
def EntityManager.GetComponentData (s : EntityManager) (entity compId : Nat) :
    Option BytePtr :=
  if MAX_ENTITIES ≤ entity then none
  else if (s.GetLocation entity).valid = false then none
  else
    let loc := s.GetLocation entity
    let arch := getArch s loc.archetypeId
    let chunk := arch.chunks.getD loc.chunkIndex emptyChunk
    match arch.GetComponentOffset compId loc.indexInChunk with
    | none => none
    | some off => some { mem := chunk.data, off := off }

/-- EntityManager::GetLivingCount. -/
def EntityManager.GetLivingCount (s : EntityManager) : Nat := s.livingEntityCount

/-- The EntityManager constructor: all MAX_ENTITIES identities free (queue
front = 0), location table value-initialized. -/
def initManager : EntityManager :=
  { availableEntities := List.range MAX_ENTITIES,
    livingEntityCount := 0,
    archetypes := [],
    signatureToArchetype := [],
    entityLocations := List.replicate MAX_ENTITIES invalidLocation }

/-- The operations a consumer can drive the manager with. -/
inductive Op where
  | register (comps : List ComponentInfo)
  | create (archetypeId : Nat)
  | destroy (entity : Nat)

/-- Apply one operation (results of register/create are discarded for state
evolution). -/
def applyOp (s : EntityManager) : Op → EntityManager
  | Op.register comps => (s.RegisterArchetype comps).1
  | Op.create aid => (s.CreateEntity aid).1
  | Op.destroy e => s.DestroyEntity e

/-- Run a sequence of operations. -/
def runOps (s : EntityManager) (ops : List Op) : EntityManager := ops.foldl applyOp s

/-- Run a sequence of operations, collecting the entity id returned by each
CreateEntity call, in order. -/
def runOpsTrace (s : EntityManager) : List Op → EntityManager × List Nat
  | [] => (s, [])
  | Op.create aid :: rest =>
    let p := s.CreateEntity aid
    let r := runOpsTrace p.1 rest
    (r.1, p.2 :: r.2)
  | Op.register comps :: rest => runOpsTrace (s.RegisterArchetype comps).1 rest
  | Op.destroy e :: rest => runOpsTrace (s.DestroyEntity e) rest

/-- The spec's recycling scenario: one 4-byte schema, create 3 entities,
destroy all 3 (the trace below shows the creates return ids 0, 1, 2),
create 3 more. -/
def recycleScenarioOps : List Op :=
  [Op.register [⟨0, 4, 4⟩], Op.create 0, Op.create 0, Op.create 0,
   Op.destroy 0, Op.destroy 1, Op.destroy 2,
   Op.create 0, Op.create 0, Op.create 0]

/-- ComponentArray.h: the sparse set, with the two unordered_maps as
association lists with unique keys. -/
structure ComponentArray (T : Type) where
  packedData : List T
  entityToIndex : List (Nat × Nat)
  indexToEntity : List (Nat × Nat)

/-- unordered_map operator[] assignment: overwrite the existing binding or
append a new one. -/
def mapInsert : List (Nat × Nat) → Nat → Nat → List (Nat × Nat)
  | [], k, v => [(k, v)]
  | (k1, v1) :: rest, k, v =>
    if k1 = k then (k, v) :: rest else (k1, v1) :: mapInsert rest k v

/-- unordered_map erase (keys are unique, so erasing the first binding). -/
def mapErase : List (Nat × Nat) → Nat → List (Nat × Nat)
  | [], _ => []
  | (k1, v1) :: rest, k =>
    if k1 = k then rest else (k1, v1) :: mapErase rest k

/-- ComponentArray::InsertData (the assert rules out an existing binding). -/
def ComponentArray.InsertData (ca : ComponentArray T) (entityId : Nat) (component : T) :
    ComponentArray T :=
  let newIndex := ca.packedData.length
  { packedData := ca.packedData ++ [component],
    entityToIndex := mapInsert ca.entityToIndex entityId newIndex,
    indexToEntity := mapInsert ca.indexToEntity newIndex entityId }

/-- ComponentArray::RemoveData: early return when the entity has no binding,
else swap-remove within the packed array and fix both maps. -/
def ComponentArray.RemoveData (ca : ComponentArray T) (entityId : Nat) :
    ComponentArray T :=
  match ca.entityToIndex.lookup entityId with
  | none => ca
  | some removedIndex =>
    let lastIndex := ca.packedData.length - 1
    let step :=
      if removedIndex = lastIndex then ca
      else
        let lastEntity := (ca.indexToEntity.lookup lastIndex).getD 0
        { packedData :=
            match ca.packedData.getLast? with
            | some lastVal => ca.packedData.set removedIndex lastVal
            | none => ca.packedData,
          entityToIndex := mapInsert ca.entityToIndex lastEntity removedIndex,
          indexToEntity := mapInsert ca.indexToEntity removedIndex lastEntity }
    { packedData := step.packedData.dropLast,
      entityToIndex := mapErase step.entityToIndex entityId,
      indexToEntity := mapErase step.indexToEntity lastIndex }

/-- ComponentArray::GetData (the assert rules out a missing binding; a miss
is modelled as none). -/
def ComponentArray.GetData (ca : ComponentArray T) (entityId : Nat) : Option T :=
  match ca.entityToIndex.lookup entityId with
  | none => none
  | some i => ca.packedData[i]?

/-- ComponentArray::HasData. -/
def ComponentArray.HasData (ca : ComponentArray T) (entityId : Nat) : Bool :=
  (ca.entityToIndex.lookup entityId).isSome

/-- ComponentArray::EntityDestroyed: call RemoveData when a binding exists. -/
def ComponentArray.EntityDestroyed (ca : ComponentArray T) (entityId : Nat) :
    ComponentArray T :=
  if (ca.entityToIndex.lookup entityId).isSome then ca.RemoveData entityId else ca

/-- ComponentArray::Size. -/
def ComponentArray.Size (ca : ComponentArray T) : Nat := ca.packedData.length

/-- Everything the manager maintains across operations: the location table
length, per-chunk bookkeeping (ids length = count, capacity = archetype
capacity, count within bounds), the two directions of the
slot-to-location correspondence, the free-queue discipline, and the
living-entity counter.  Note count ≤ max capacity 1 rather than
count ≤ capacity: a zero-capacity archetype (oversized schema, see C5)
still receives one entity per allocated chunk. -/
structure ManagerInv (s : EntityManager) : Prop where
  locLen : s.entityLocations.length = MAX_ENTITIES
  idsLen : ∀ aid, aid < s.archetypes.length → ∀ cid, cid < (getArch s aid).chunks.length →
    (chunkAt s aid cid).entityIds.length = (chunkAt s aid cid).header.count
  capEq : ∀ aid, aid < s.archetypes.length → ∀ cid, cid < (getArch s aid).chunks.length →
    (chunkAt s aid cid).header.capacity = (getArch s aid).entitiesPerChunk
  countLe : ∀ aid, aid < s.archetypes.length → ∀ cid, cid < (getArch s aid).chunks.length →
    (chunkAt s aid cid).header.count ≤ max (chunkAt s aid cid).header.capacity 1
  resolve : ∀ aid, aid < s.archetypes.length → ∀ cid, cid < (getArch s aid).chunks.length →
    ∀ i, i < (chunkAt s aid cid).header.count →
    (chunkAt s aid cid).entityIds.getD i 0 < MAX_ENTITIES ∧
    s.GetLocation ((chunkAt s aid cid).entityIds.getD i 0) =
      { archetypeId := aid, chunkIndex := cid, indexInChunk := i, valid := true }
  validLoc : ∀ e, e < MAX_ENTITIES → (s.GetLocation e).valid = true →
    (s.GetLocation e).archetypeId < s.archetypes.length ∧
    (s.GetLocation e).chunkIndex < (getArch s (s.GetLocation e).archetypeId).chunks.length ∧
    (s.GetLocation e).indexInChunk <
      (chunkAt s (s.GetLocation e).archetypeId (s.GetLocation e).chunkIndex).header.count ∧
    (chunkAt s (s.GetLocation e).archetypeId (s.GetLocation e).chunkIndex).entityIds.getD
      (s.GetLocation e).indexInChunk 0 = e
  freeInv : ∀ e, e ∈ s.availableEntities → e < MAX_ENTITIES ∧ (s.GetLocation e).valid = false
  freeNodup : s.availableEntities.Nodup
  living : s.livingEntityCount = s.entityLocations.countP (fun l => l.valid)

/-- The state CreateEntity builds once an identity id and a target chunk
(aid, ci) with room have been picked: pop the queue, bump the living count,
push the id into the chunk and record the location. -/
def insertEntityState (u : EntityManager) (aid ci id : Nat) (rest : List Nat) :
    EntityManager :=
  let arch := getArch u aid
  let ch := chunkAt u aid ci
  let newCh : MemoryChunk :=
    { ch with header.count := ch.header.count + 1, entityIds := ch.entityIds ++ [id] }
  let newArch : Archetype := { arch with chunks := arch.chunks.set ci newCh }
  let newLoc : EntityLocation :=
    { archetypeId := aid, chunkIndex := ci, indexInChunk := ch.header.count, valid := true }
  { u with
    availableEntities := rest,
    livingEntityCount := u.livingEntityCount + 1,
    archetypes := u.archetypes.set aid newArch,
    entityLocations := u.entityLocations.set id newLoc }

/-- The DestroyEntity result when the entity occupies the last slot of its
chunk: shrink the chunk, invalidate the location, recycle the identity. -/
def destroyLastState (s : EntityManager) (e : Nat) : EntityManager :=
  let loc := s.GetLocation e
  let arch := getArch s loc.archetypeId
  let chunk := arch.chunks.getD loc.chunkIndex emptyChunk
  let chunk2 := { chunk with header.count := chunk.header.count - 1,
                             entityIds := chunk.entityIds.dropLast }
  let s2 := setChunk s loc.archetypeId loc.chunkIndex chunk2
  let deadLoc := { s2.GetLocation e with valid := false }
  { s2 with
    entityLocations := s2.entityLocations.set e deadLoc,
    availableEntities := s2.availableEntities ++ [e],
    livingEntityCount := s2.livingEntityCount - 1 }

/-- The DestroyEntity result in the swap-remove case: relocate the last
slot's bytes and identity into the vacated slot first. -/
def destroySwapState (s : EntityManager) (e : Nat) : EntityManager :=
  let loc := s.GetLocation e
  let arch := getArch s loc.archetypeId
  let chunk := arch.chunks.getD loc.chunkIndex emptyChunk
  let lastIndex := chunk.header.count - 1
  let movedEntity := chunk.entityIds.getD lastIndex 0
  let movedLoc := s.GetLocation movedEntity
  let movedLoc1 := { movedLoc with indexInChunk := loc.indexInChunk }
  let chunk1 := { chunk with
    data := copyComponents arch lastIndex loc.indexInChunk chunk.data,
    entityIds := chunk.entityIds.set loc.indexInChunk movedEntity }
  let s1 := { s with entityLocations := s.entityLocations.set movedEntity movedLoc1 }
  let chunk2 := { chunk1 with header.count := chunk1.header.count - 1,
                              entityIds := chunk1.entityIds.dropLast }
  let s2 := setChunk s1 loc.archetypeId loc.chunkIndex chunk2
  let deadLoc := { s2.GetLocation e with valid := false }
  { s2 with
    entityLocations := s2.entityLocations.set e deadLoc,
    availableEntities := s2.availableEntities ++ [e],
    livingEntityCount := s2.livingEntityCount - 1 }

/-- A handcrafted one-entity manager with an empty free queue, used as the
concrete input of the C4 witness. -/
def fifoWitnessChunk : MemoryChunk :=
  { header := { archetypeId := 0, count := 1, capacity := 4094 },
    data := fun _ => 0,
    entityIds := [0] }

/-- The archetype of the C4 witness state. -/
def fifoWitnessArch : Archetype :=
  { id := 0, components := [⟨0, 4, 4⟩], chunks := [fifoWitnessChunk],
    entitySize := 4, entitiesPerChunk := 4094 }

/-- The C4 witness state itself: entity 0 lives in slot 0, queue empty. -/
def fifoWitnessState : EntityManager :=
  { availableEntities := [], livingEntityCount := 1,
    archetypes := [fifoWitnessArch],
    signatureToArchetype := [(0, 0)],
    entityLocations := [{ archetypeId := 0, chunkIndex := 0, indexInChunk := 0,
                          valid := true }] }

/-- Sum of component sizes of a schema prefix (the byte width, per slot, of
everything laid out before a given component region). -/
def sumSizes (L : List ComponentInfo) : Nat := (L.map (fun c => c.size)).sum

/-- The spec's data model makes a schema an ordered *set* of component
descriptors: operations are well-formed when every registered schema has
pairwise-distinct component ids. -/
def GoodOp : Op → Prop
  | Op.register comps => (comps.map (fun c => c.id)).Nodup
  | Op.create _ => True
  | Op.destroy _ => True

instance : DecidablePred GoodOp := fun op =>
  match op with
  | Op.register comps =>
    (inferInstance : Decidable ((comps.map (fun c => c.id)).Nodup))
  | Op.create _ => (inferInstance : Decidable True)
  | Op.destroy _ => (inferInstance : Decidable True)

/-- Every archetype in the manager has pairwise-distinct component ids. -/
def ArchNodup (s : EntityManager) : Prop :=
  ∀ aid, aid < s.archetypes.length →
    ((getArch s aid).components.map (fun c => c.id)).Nodup

/-- A state reached from the fresh manager by operations whose schemas are
ordered sets of descriptors. -/
def ReachableGood (s : EntityManager) : Prop :=
  ∃ ops : List Op, (∀ op ∈ ops, GoodOp op) ∧ s = runOps initManager ops

/-- The identity stored in the last occupied slot of an entity's chunk: the
movedEntity local of EntityManager::DestroyEntity. -/
def swapMoved (s : EntityManager) (e : Nat) : Nat :=
  let loc := s.GetLocation e
  let chunk := chunkAt s loc.archetypeId loc.chunkIndex
  chunk.entityIds.getD (chunk.header.count - 1) 0

/-- The operation list of the C1 witness: one 4-byte schema, three creates
(the created identities are 0, 1, 2; entity 1 sits in the middle slot). -/
def swapWitnessOps : List Op :=
  [Op.register [⟨5, 4, 4⟩], Op.create 0, Op.create 0, Op.create 0]

namespace LH

theorem getD_oob {α : Type} (l : List α) (i : Nat) (d : α) (h : l.length ≤ i) :
    l.getD i d = d := by
  simp [List.getD, List.getElem?_eq_none, h]

theorem getD_set_self {α : Type} (l : List α) (i : Nat) (a d : α) (h : i < l.length) :
    (l.set i a).getD i d = a := by
  simp [List.getD, List.getElem?_set, h]

theorem getD_set_ne {α : Type} (l : List α) (i j : Nat) (a d : α) (h : i ≠ j) :
    (l.set i a).getD j d = l.getD j d := by
  simp [List.getD, List.getElem?_set, h]

theorem getD_append_left {α : Type} (l l' : List α) (i : Nat) (d : α) (h : i < l.length) :
    (l ++ l').getD i d = l.getD i d := by
  simp [List.getD, List.getElem?_append, h]

theorem getD_append_last {α : Type} (l : List α) (a d : α) :
    (l ++ [a]).getD l.length d = a := by
  simp [List.getD]

theorem getD_replicate {α : Type} (n i : Nat) (a d : α) (h : i < n) :
    (List.replicate n a).getD i d = a := by
  simp [List.getD, List.getElem?_replicate, h]

theorem getD_dropLast {α : Type} (l : List α) (i : Nat) (d : α) (h : i + 1 < l.length) :
    l.dropLast.getD i d = l.getD i d := by
  have h1 : i < l.dropLast.length := by simp [List.length_dropLast]; omega
  have h2 : i < l.length := by omega
  rw [List.getD, List.getD, List.get?_eq_getElem?, List.get?_eq_getElem?,
    List.getElem?_eq_getElem h1, List.getElem?_eq_getElem h2]
  simp [List.getElem_dropLast]

theorem countP_replicate {α : Type} (p : α → Bool) (n : Nat) (a : α) :
    (List.replicate n a).countP p = if p a then n else 0 := by
  induction n with
  | zero => simp
  | succ k ih => by_cases h : p a <;> simp [List.replicate_succ, List.countP_cons, h, ih]

theorem countP_set_flip_up {α : Type} (p : α → Bool) (l : List α) (i : Nat) (a d : α)
    (h : i < l.length) (hold : p (l.getD i d) = false) (hnew : p a = true) :
    (l.set i a).countP p = l.countP p + 1 := by
  induction l generalizing i with
  | nil => simp at h
  | cons x xs ih =>
    cases i with
    | zero =>
      simp only [List.getD_cons_zero] at hold
      simp [List.set, List.countP_cons, hold, hnew]
    | succ j =>
      have hj : j < xs.length := by simpa using h
      have hx : p (xs.getD j d) = false := by simpa [List.getD_cons_succ] using hold
      simp only [List.set, List.countP_cons]
      rw [ih j hj hx]
      omega

theorem countP_set_flip_down {α : Type} (p : α → Bool) (l : List α) (i : Nat) (a d : α)
    (h : i < l.length) (hold : p (l.getD i d) = true) (hnew : p a = false) :
    l.countP p = (l.set i a).countP p + 1 := by
  induction l generalizing i with
  | nil => simp at h
  | cons x xs ih =>
    cases i with
    | zero =>
      simp only [List.getD_cons_zero] at hold
      simp [List.set, List.countP_cons, hold, hnew]
    | succ j =>
      have hj : j < xs.length := by simpa using h
      have hx : p (xs.getD j d) = true := by simpa [List.getD_cons_succ] using hold
      simp only [List.set, List.countP_cons]
      rw [ih j hj hx]
      omega

theorem countP_set_same {α : Type} (p : α → Bool) (l : List α) (i : Nat) (a d : α)
    (hsame : p a = p (l.getD i d)) :
    (l.set i a).countP p = l.countP p := by
  induction l generalizing i with
  | nil => simp
  | cons x xs ih =>
    cases i with
    | zero =>
      simp only [List.getD_cons_zero] at hsame
      simp [List.set, List.countP_cons, hsame]
    | succ j =>
      have hx : p a = p (xs.getD j d) := by simpa [List.getD_cons_succ] using hsame
      simp only [List.set, List.countP_cons]
      rw [ih j hx]

theorem nodup_append_singleton {α : Type} (l : List α) (e : α) (h : l.Nodup) (he : e ∉ l) :
    (l ++ [e]).Nodup := by
  simp [List.nodup_append, h, he]

end LH

theorem computeSignature_perm (comps comps' : List ComponentInfo) (hp : comps.Perm comps') :
    EntityManager.ComputeSignature comps = EntityManager.ComputeSignature comps' := by
  unfold EntityManager.ComputeSignature
  exact hp.foldl_eq' (fun x _ y _ z => by
    rw [Nat.xor_assoc, Nat.xor_assoc, Nat.xor_comm (x.id * 2654435761) (y.id * 2654435761)]) 0

theorem registerArchetype_hit (s : EntityManager) (comps : List ComponentInfo) (i : Nat)
    (h : s.signatureToArchetype.lookup (EntityManager.ComputeSignature comps) = some i) :
    s.RegisterArchetype comps = (s, i) := by
  unfold EntityManager.RegisterArchetype
  simp only [h]

theorem registerArchetype_lookup_result (s : EntityManager) (comps : List ComponentInfo) :
    (s.RegisterArchetype comps).1.signatureToArchetype.lookup
      (EntityManager.ComputeSignature comps) = some (s.RegisterArchetype comps).2 := by
  unfold EntityManager.RegisterArchetype
  cases hl : s.signatureToArchetype.lookup (EntityManager.ComputeSignature comps) with
  | some i => simp [hl]
  | none => simp [hl, EntityManager.AllocateChunk, List.lookup]

/-- C7: registering a component list and then any permutation of it returns
the same archetype id, and the second call leaves the manager unchanged
(so no second archetype is created). -/
theorem registerArchetype_dedup_perm (s : EntityManager) (comps comps' : List ComponentInfo)
    (hp : comps.Perm comps') :
    (s.RegisterArchetype comps).1.RegisterArchetype comps' =
      ((s.RegisterArchetype comps).1, (s.RegisterArchetype comps).2) := by
  have hsig : EntityManager.ComputeSignature comps' = EntityManager.ComputeSignature comps :=
    (computeSignature_perm comps comps' hp).symm
  exact registerArchetype_hit _ comps' _ (by rw [hsig]; exact registerArchetype_lookup_result s comps)

/-- Witness for C7 at a concrete permuted pair of two-component schemas. -/
theorem registerArchetype_dedup_perm_witness :
    ([⟨1, 4, 4⟩, ⟨2, 8, 8⟩] : List ComponentInfo).Perm [⟨2, 8, 8⟩, ⟨1, 4, 4⟩] ∧
    (initManager.RegisterArchetype [⟨1, 4, 4⟩, ⟨2, 8, 8⟩]).1.RegisterArchetype
        [⟨2, 8, 8⟩, ⟨1, 4, 4⟩] =
      ((initManager.RegisterArchetype [⟨1, 4, 4⟩, ⟨2, 8, 8⟩]).1,
       (initManager.RegisterArchetype [⟨1, 4, 4⟩, ⟨2, 8, 8⟩]).2) :=
  ⟨by decide, registerArchetype_dedup_perm initManager _ _ (by decide)⟩

/-- C8: CreateEntity with an out-of-range archetype id fails (returns the
INVALID_ENTITY sentinel, the code's only failure signal) and leaves the
whole manager state unchanged. -/
theorem createEntity_out_of_range_fails (s : EntityManager) (aid : Nat)
    (h : s.archetypes.length ≤ aid) :
    s.CreateEntity aid = (s, INVALID_ENTITY) := by
  unfold EntityManager.CreateEntity
  by_cases hq : s.availableEntities = []
  · simp [hq]
  · simp [hq, h]

/-- Witness for C8 on the fresh manager, which has no archetypes. -/
theorem createEntity_out_of_range_fails_witness :
    initManager.archetypes.length ≤ 0 ∧
    initManager.CreateEntity 0 = (initManager, INVALID_ENTITY) :=
  ⟨Nat.le_refl 0, createEntity_out_of_range_fails initManager 0 (Nat.le_refl 0)⟩

/-- C9: DestroyEntity on an identity with no valid location (never
allocated, already destroyed, or out of range) is a silent no-op leaving
the whole manager state unchanged. -/
theorem destroyEntity_invalid_noop (s : EntityManager) (e : Nat)
    (h : (s.GetLocation e).valid = false) :
    s.DestroyEntity e = s := by
  unfold EntityManager.DestroyEntity
  by_cases hm : MAX_ENTITIES ≤ e
  · simp [hm]
  · simp [hm, h]

/-- Witness for C9: identity 0 on the fresh manager has no valid location. -/
theorem destroyEntity_invalid_noop_witness :
    (initManager.GetLocation 0).valid = false ∧
    initManager.DestroyEntity 0 = initManager := by
  have h : (initManager.GetLocation 0).valid = false := by
    show ((List.replicate MAX_ENTITIES invalidLocation).getD 0 invalidLocation).valid = false
    rw [LH.getD_replicate MAX_ENTITIES 0 invalidLocation invalidLocation
      (by norm_num [MAX_ENTITIES])]
    rfl
  exact ⟨h, destroyEntity_invalid_noop initManager 0 h⟩

/-- C10: RemoveData on an entity with no stored component returns the array
unchanged (packed data, both maps, and Size), and the EntityDestroyed hook
is likewise a no-op. -/
theorem componentArray_remove_missing {T : Type} (ca : ComponentArray T) (e : Nat)
    (h : ca.entityToIndex.lookup e = none) :
    ca.RemoveData e = ca ∧ ca.EntityDestroyed e = ca ∧ (ca.RemoveData e).Size = ca.Size := by
  have h1 : ca.RemoveData e = ca := by
    unfold ComponentArray.RemoveData
    rw [h]
  refine ⟨h1, ?_, by rw [h1]⟩
  unfold ComponentArray.EntityDestroyed
  rw [h]
  simp

/-- Witness for C10 on a one-element array and an unbound entity id. -/
theorem componentArray_remove_missing_witness :
    (⟨[7], [(3, 0)], [(0, 3)]⟩ : ComponentArray Nat).entityToIndex.lookup 9 = none ∧
    ((⟨[7], [(3, 0)], [(0, 3)]⟩ : ComponentArray Nat).RemoveData 9 =
      ⟨[7], [(3, 0)], [(0, 3)]⟩ ∧
     (⟨[7], [(3, 0)], [(0, 3)]⟩ : ComponentArray Nat).EntityDestroyed 9 =
      ⟨[7], [(3, 0)], [(0, 3)]⟩ ∧
     ((⟨[7], [(3, 0)], [(0, 3)]⟩ : ComponentArray Nat).RemoveData 9).Size =
      (⟨[7], [(3, 0)], [(0, 3)]⟩ : ComponentArray Nat).Size) :=
  ⟨rfl, componentArray_remove_missing _ 9 rfl⟩

/-- C6: a freshly registered archetype has entity stride equal to the plain
sum of its component sizes (no padding) and per-chunk capacity equal to
floor((CHUNK_SIZE - chunk header size) / stride). -/
theorem registerArchetype_stride (s : EntityManager) (comps : List ComponentInfo)
    (h : s.signatureToArchetype.lookup (EntityManager.ComputeSignature comps) = none) :
    (getArch (s.RegisterArchetype comps).1 (s.RegisterArchetype comps).2).entitySize
      = (comps.map (fun c => c.size)).sum ∧
    (getArch (s.RegisterArchetype comps).1 (s.RegisterArchetype comps).2).entitiesPerChunk
      = (CHUNK_SIZE - CHUNK_HEADER_SIZE) / (comps.map (fun c => c.size)).sum := by
  unfold EntityManager.RegisterArchetype
  simp only [h]
  unfold EntityManager.AllocateChunk getArch
  have hlen : s.archetypes.length <
      (s.archetypes ++ [mkArchetype s.archetypes.length comps]).length := by simp
  rw [LH.getD_set_self _ _ _ _ (by simp)]
  rw [LH.getD_append_last]
  constructor <;> rfl

/-- Witness for C6: two 12-byte components give stride 24 and hence
floor((16384 - 8) / 24) = 682 entities per chunk. -/
theorem registerArchetype_stride_witness :
    initManager.signatureToArchetype.lookup (EntityManager.ComputeSignature
      [⟨0, 12, 4⟩, ⟨1, 12, 4⟩]) = none ∧
    (getArch (initManager.RegisterArchetype [⟨0, 12, 4⟩, ⟨1, 12, 4⟩]).1
      (initManager.RegisterArchetype [⟨0, 12, 4⟩, ⟨1, 12, 4⟩]).2).entitiesPerChunk = 682 := by
  refine ⟨rfl, ?_⟩
  rw [(registerArchetype_stride initManager [⟨0, 12, 4⟩, ⟨1, 12, 4⟩] rfl).2]
  decide

/-- C5: RegisterArchetype does NOT reject a schema whose stride exceeds the
usable chunk bytes.  On the one-component schema of size CHUNK_DATA_SIZE + 1
it silently registers an archetype with entitiesPerChunk = 0 and allocates a
zero-capacity chunk, where the specification requires the registration to
fail with SchemaTooLarge and leave the manager unchanged. -/
theorem registerArchetype_oversized_schema :
    ((initManager.RegisterArchetype [⟨0, CHUNK_DATA_SIZE + 1, 1⟩]).1).archetypes.length = 1 ∧
    (getArch (initManager.RegisterArchetype [⟨0, CHUNK_DATA_SIZE + 1, 1⟩]).1 0).entitiesPerChunk = 0 ∧
    (getArch (initManager.RegisterArchetype [⟨0, CHUNK_DATA_SIZE + 1, 1⟩]).1 0).chunks.length = 1 := by
  refine ⟨rfl, ?_, rfl⟩
  decide

theorem findFreeChunk_some (l : List MemoryChunk) (i : Nat) (h : findFreeChunk l = some i) :
    i < l.length ∧
    (l.getD i emptyChunk).header.count < (l.getD i emptyChunk).header.capacity := by
  induction l generalizing i with
  | nil => simp [findFreeChunk] at h
  | cons c rest ih =>
    by_cases hc : c.header.count < c.header.capacity
    · simp only [findFreeChunk, if_pos hc, Option.some.injEq] at h
      subst h
      simp [hc]
    · simp only [findFreeChunk, if_neg hc, Option.map_eq_some'] at h
      rcases h with ⟨j, hj, hji⟩
      rcases ih j hj with ⟨h1, h2⟩
      subst hji
      constructor
      · simpa using Nat.succ_lt_succ h1
      · simpa [List.getD_cons_succ] using h2

theorem initManager_avail : initManager.availableEntities = List.range MAX_ENTITIES := by
  simp [initManager]

theorem inv_init : ManagerInv initManager := by
  have hloc : ∀ e, initManager.GetLocation e = invalidLocation := by
    intro e
    show (List.replicate MAX_ENTITIES invalidLocation).getD e invalidLocation = _
    rcases Nat.lt_or_ge e MAX_ENTITIES with he | he
    · exact LH.getD_replicate _ _ _ _ he
    · exact LH.getD_oob _ _ _ (by simpa using he)
  refine ⟨?_, ?_, ?_, ?_, ?_, ?_, ?_, ?_, ?_⟩
  · simp [initManager]
  · intro aid ha
    simp [initManager] at ha
  · intro aid ha
    simp [initManager] at ha
  · intro aid ha
    simp [initManager] at ha
  · intro aid ha
    simp [initManager] at ha
  · intro e _ hv
    rw [hloc e] at hv
    simp [invalidLocation] at hv
  · intro e he
    rw [initManager_avail] at he
    refine ⟨List.mem_range.mp he, ?_⟩
    rw [hloc e]
    rfl
  · rw [initManager_avail]
    exact List.nodup_range MAX_ENTITIES
  · show 0 = (List.replicate MAX_ENTITIES invalidLocation).countP (fun l => l.valid)
    rw [LH.countP_replicate]
    simp [invalidLocation]

theorem set_last_append {α : Type} (l : List α) (a b : α) :
    (l ++ [a]).set l.length b = l ++ [b] := by
  induction l with
  | nil => rfl
  | cons x xs ih => simp [List.set, ih]

/-- Appending a fresh archetype whose chunks are all empty (count 0, no ids,
capacity = its entitiesPerChunk) preserves the invariant, as does pushing a
signature binding. -/
theorem inv_append_arch (s : EntityManager) (hInv : ManagerInv s) (na : Archetype)
    (sg : Nat × Nat)
    (hch : ∀ cid, cid < na.chunks.length →
      (na.chunks.getD cid emptyChunk).entityIds = [] ∧
      (na.chunks.getD cid emptyChunk).header.count = 0 ∧
      (na.chunks.getD cid emptyChunk).header.capacity = na.entitiesPerChunk) :
    ManagerInv { s with archetypes := s.archetypes ++ [na],
                        signatureToArchetype := sg :: s.signatureToArchetype } := by
  set t : EntityManager := { s with archetypes := s.archetypes ++ [na],
                                    signatureToArchetype := sg :: s.signatureToArchetype } with ht
  have hlen : t.archetypes.length = s.archetypes.length + 1 := by simp [ht]
  have harch_old : ∀ aid, aid < s.archetypes.length → getArch t aid = getArch s aid := by
    intro aid ha
    show (s.archetypes ++ [na]).getD aid emptyArchetype = _
    exact LH.getD_append_left _ _ _ _ ha
  have harch_new : getArch t s.archetypes.length = na := by
    show (s.archetypes ++ [na]).getD s.archetypes.length emptyArchetype = na
    exact LH.getD_append_last _ _ _
  have hchunk_old : ∀ aid, aid < s.archetypes.length → ∀ cid,
      chunkAt t aid cid = chunkAt s aid cid := by
    intro aid ha cid
    unfold chunkAt
    rw [harch_old aid ha]
  have hloc : ∀ e, t.GetLocation e = s.GetLocation e := by
    intro e
    rfl
  have hsplit : ∀ aid, aid < t.archetypes.length →
      aid < s.archetypes.length ∨ aid = s.archetypes.length := by
    intro aid ha
    rw [hlen] at ha
    omega
  refine ⟨?_, ?_, ?_, ?_, ?_, ?_, ?_, ?_, ?_⟩
  · exact hInv.locLen
  · intro aid ha cid hc
    rcases hsplit aid ha with h1 | h1
    · rw [harch_old aid h1] at hc
      rw [hchunk_old aid h1 cid]
      exact hInv.idsLen aid h1 cid hc
    · subst h1
      rw [harch_new] at hc
      unfold chunkAt
      rw [harch_new]
      rcases hch cid hc with ⟨h2, h3, _⟩
      rw [h2, h3]
      rfl
  · intro aid ha cid hc
    rcases hsplit aid ha with h1 | h1
    · rw [harch_old aid h1] at hc
      rw [hchunk_old aid h1 cid, harch_old aid h1]
      exact hInv.capEq aid h1 cid hc
    · subst h1
      rw [harch_new] at hc
      unfold chunkAt
      rw [harch_new]
      exact (hch cid hc).2.2
  · intro aid ha cid hc
    rcases hsplit aid ha with h1 | h1
    · rw [harch_old aid h1] at hc
      rw [hchunk_old aid h1 cid]
      exact hInv.countLe aid h1 cid hc
    · subst h1
      rw [harch_new] at hc
      unfold chunkAt
      rw [harch_new, (hch cid hc).2.1]
      exact Nat.zero_le _
  · intro aid ha cid hc i hi
    rcases hsplit aid ha with h1 | h1
    · rw [harch_old aid h1] at hc
      rw [hchunk_old aid h1 cid] at hi ⊢
      rw [hloc]
      exact hInv.resolve aid h1 cid hc i hi
    · subst h1
      rw [harch_new] at hc
      unfold chunkAt at hi
      rw [harch_new, (hch cid hc).2.1] at hi
      omega
  · intro e he hv
    rw [hloc] at hv
    rcases hInv.validLoc e he hv with ⟨h1, h2, h3, h4⟩
    rw [hloc]
    refine ⟨by omega, ?_, ?_, ?_⟩
    · rw [harch_old _ h1]
      exact h2
    · rw [hchunk_old _ h1]
      exact h3
    · rw [hchunk_old _ h1]
      exact h4
  · intro e he
    rw [hloc]
    exact hInv.freeInv e he
  · exact hInv.freeNodup
  · exact hInv.living

/-- The fresh-signature branch of RegisterArchetype preserves the invariant. -/
theorem inv_register_fresh (s : EntityManager) (hInv : ManagerInv s)
    (comps : List ComponentInfo) (sig : Nat) :
    ManagerInv (EntityManager.AllocateChunk
      { s with archetypes := s.archetypes ++ [mkArchetype s.archetypes.length comps],
               signatureToArchetype := (sig, s.archetypes.length) :: s.signatureToArchetype }
      s.archetypes.length) := by
  unfold EntityManager.AllocateChunk
  have harch : getArch
      { s with archetypes := s.archetypes ++ [mkArchetype s.archetypes.length comps],
               signatureToArchetype := (sig, s.archetypes.length) :: s.signatureToArchetype }
      s.archetypes.length = mkArchetype s.archetypes.length comps := by
    show (s.archetypes ++ [mkArchetype s.archetypes.length comps]).getD
      s.archetypes.length emptyArchetype = _
    exact LH.getD_append_last _ _ _
  rw [harch]
  have hset : (s.archetypes ++ [mkArchetype s.archetypes.length comps]).set
      s.archetypes.length
      { mkArchetype s.archetypes.length comps with
        chunks := (mkArchetype s.archetypes.length comps).chunks ++
          [mkMemoryChunk s.archetypes.length
            (mkArchetype s.archetypes.length comps).entitiesPerChunk] } =
      s.archetypes ++
        [{ mkArchetype s.archetypes.length comps with
           chunks := (mkArchetype s.archetypes.length comps).chunks ++
             [mkMemoryChunk s.archetypes.length
               (mkArchetype s.archetypes.length comps).entitiesPerChunk] }] :=
    set_last_append _ _ _
  have hgoal := inv_append_arch s hInv
    ({ mkArchetype s.archetypes.length comps with
       chunks := (mkArchetype s.archetypes.length comps).chunks ++
         [mkMemoryChunk s.archetypes.length
           (mkArchetype s.archetypes.length comps).entitiesPerChunk] })
    ((sig, s.archetypes.length))
    (by
      intro cid hc
      have h1 : ({ mkArchetype s.archetypes.length comps with
          chunks := (mkArchetype s.archetypes.length comps).chunks ++
            [mkMemoryChunk s.archetypes.length
              (mkArchetype s.archetypes.length comps).entitiesPerChunk] } :
          Archetype).chunks.length = 1 := rfl
      have hc0 : cid = 0 := by omega
      subst hc0
      exact ⟨rfl, rfl, rfl⟩)
  show ManagerInv { s with
    archetypes := (s.archetypes ++ [mkArchetype s.archetypes.length comps]).set
      s.archetypes.length
      { mkArchetype s.archetypes.length comps with
        chunks := (mkArchetype s.archetypes.length comps).chunks ++
          [mkMemoryChunk s.archetypes.length
            (mkArchetype s.archetypes.length comps).entitiesPerChunk] },
    signatureToArchetype := (sig, s.archetypes.length) :: s.signatureToArchetype }
  rw [hset]
  exact hgoal

/-- RegisterArchetype preserves the invariant. -/
theorem inv_register (s : EntityManager) (hInv : ManagerInv s) (comps : List ComponentInfo) :
    ManagerInv (s.RegisterArchetype comps).1 := by
  unfold EntityManager.RegisterArchetype
  cases hl : s.signatureToArchetype.lookup (EntityManager.ComputeSignature comps) with
  | some i =>
    simp only [hl]
    exact hInv
  | none =>
    simp only [hl]
    exact inv_register_fresh s hInv comps (EntityManager.ComputeSignature comps)

theorem inv_insert_core (u : EntityManager) (hInv : ManagerInv u)
    (aid ci id : Nat) (rest : List Nat)
    (hq : u.availableEntities = id :: rest)
    (ha : aid < u.archetypes.length)
    (hci : ci < (getArch u aid).chunks.length)
    (hcap : (chunkAt u aid ci).header.count < (chunkAt u aid ci).header.capacity ∨
            (chunkAt u aid ci).header.count = 0) :
    ManagerInv (insertEntityState u aid ci id rest) := by
  have hid : id < MAX_ENTITIES ∧ (u.GetLocation id).valid = false :=
    hInv.freeInv id (by rw [hq]; exact List.mem_cons_self id rest)
  have hnodup : (id :: rest).Nodup := by rw [← hq]; exact hInv.freeNodup
  have hidrest : id ∉ rest := (List.nodup_cons.mp hnodup).1
  have hrestnodup : rest.Nodup := (List.nodup_cons.mp hnodup).2
  set A := getArch u aid with hA
  set ch := chunkAt u aid ci with hch
  set newCh : MemoryChunk := ({ ch with header.count := ch.header.count + 1, entityIds := ch.entityIds ++ [id] }) with hnewCh
  set newArch : Archetype := ({ A with chunks := A.chunks.set ci newCh }) with hnewArch
  set newLoc : EntityLocation := ({ archetypeId := aid, chunkIndex := ci, indexInChunk := ch.header.count, valid := true }) with hnewLoc
  set t := insertEntityState u aid ci id rest with htdef
  have htarch : t.archetypes = u.archetypes.set aid newArch := rfl
  have htloc : t.entityLocations = u.entityLocations.set id newLoc := rfl
  have htq : t.availableEntities = rest := rfl
  have htlive : t.livingEntityCount = u.livingEntityCount + 1 := rfl
  have hlen : t.archetypes.length = u.archetypes.length := by
    rw [htarch, List.length_set]
  have hidslen : ch.entityIds.length = ch.header.count := hInv.idsLen aid ha ci hci
  have harch_new : getArch t aid = newArch := by
    show t.archetypes.getD aid emptyArchetype = newArch
    rw [htarch]
    exact LH.getD_set_self _ _ _ _ ha
  have harch_old : ∀ j, aid ≠ j → getArch t j = getArch u j := by
    intro j hj
    show t.archetypes.getD j emptyArchetype = u.archetypes.getD j emptyArchetype
    rw [htarch]
    exact LH.getD_set_ne _ _ _ _ _ hj
  have hchunk_new : chunkAt t aid ci = newCh := by
    unfold chunkAt
    rw [harch_new, hnewArch]
    exact LH.getD_set_self _ _ _ _ hci
  have hchunk_same_arch : ∀ cj, ci ≠ cj → chunkAt t aid cj = chunkAt u aid cj := by
    intro cj hj
    unfold chunkAt
    rw [harch_new, hnewArch]
    show (A.chunks.set ci newCh).getD cj emptyChunk = _
    exact LH.getD_set_ne _ _ _ _ _ hj
  have hchunk_other : ∀ j, aid ≠ j → ∀ cj, chunkAt t j cj = chunkAt u j cj := by
    intro j hj cj
    unfold chunkAt
    rw [harch_old j hj]
  have hloc_id : t.GetLocation id = newLoc := by
    show t.entityLocations.getD id invalidLocation = newLoc
    rw [htloc]
    exact LH.getD_set_self _ _ _ _ (by rw [hInv.locLen]; exact hid.1)
  have hloc_other : ∀ e, id ≠ e → t.GetLocation e = u.GetLocation e := by
    intro e he
    show t.entityLocations.getD e invalidLocation = u.entityLocations.getD e invalidLocation
    rw [htloc]
    exact LH.getD_set_ne _ _ _ _ _ he
  have hslot_ne_id : ∀ j, j < u.archetypes.length → ∀ cj, cj < (getArch u j).chunks.length →
      ∀ i, i < (chunkAt u j cj).header.count →
      id ≠ (chunkAt u j cj).entityIds.getD i 0 := by
    intro j hj cj hcj i hi heq
    have hres := (hInv.resolve j hj cj hcj i hi).2
    rw [← heq] at hres
    rw [hres] at hid
    simp at hid
  have hnewArch_len : newArch.chunks.length = A.chunks.length := by
    rw [hnewArch]
    exact List.length_set _ _ _
  refine ⟨?_, ?_, ?_, ?_, ?_, ?_, ?_, ?_, ?_⟩
  · rw [htloc, List.length_set]
    exact hInv.locLen
  · intro j hj cj hcj
    rw [hlen] at hj
    by_cases hja : aid = j
    · subst hja
      rw [harch_new, hnewArch_len] at hcj
      by_cases hcji : ci = cj
      · subst hcji
        rw [hchunk_new, hnewCh]
        show (ch.entityIds ++ [id]).length = ch.header.count + 1
        rw [List.length_append, hidslen]
        rfl
      · rw [hchunk_same_arch cj hcji]
        exact hInv.idsLen aid hj cj hcj
    · rw [harch_old j hja] at hcj
      rw [hchunk_other j hja cj]
      exact hInv.idsLen j hj cj hcj
  · intro j hj cj hcj
    rw [hlen] at hj
    by_cases hja : aid = j
    · subst hja
      rw [harch_new, hnewArch_len] at hcj
      rw [harch_new]
      have hepc : newArch.entitiesPerChunk = A.entitiesPerChunk := by rw [hnewArch]
      rw [hepc]
      by_cases hcji : ci = cj
      · subst hcji
        rw [hchunk_new, hnewCh]
        show ch.header.capacity = A.entitiesPerChunk
        exact hInv.capEq aid hj ci hci
      · rw [hchunk_same_arch cj hcji]
        exact hInv.capEq aid hj cj hcj
    · rw [harch_old j hja] at hcj
      rw [hchunk_other j hja cj, harch_old j hja]
      exact hInv.capEq j hj cj hcj
  · intro j hj cj hcj
    rw [hlen] at hj
    by_cases hja : aid = j
    · subst hja
      rw [harch_new, hnewArch_len] at hcj
      by_cases hcji : ci = cj
      · subst hcji
        rw [hchunk_new, hnewCh]
        show ch.header.count + 1 ≤ max ch.header.capacity 1
        rcases hcap with h1 | h1
        · exact Nat.le_trans h1 (Nat.le_max_left _ _)
        · rw [h1]
          exact Nat.le_max_right _ _
      · rw [hchunk_same_arch cj hcji]
        exact hInv.countLe aid hj cj hcj
    · rw [harch_old j hja] at hcj
      rw [hchunk_other j hja cj]
      exact hInv.countLe j hj cj hcj
  · intro j hj cj hcj i hi
    rw [hlen] at hj
    by_cases hja : aid = j
    · subst hja
      rw [harch_new, hnewArch_len] at hcj
      by_cases hcji : ci = cj
      · subst hcji
        rw [hchunk_new, hnewCh] at hi ⊢
        have hi2 : i < ch.header.count + 1 := hi
        show ((ch.entityIds ++ [id]).getD i 0 < MAX_ENTITIES) ∧
          t.GetLocation ((ch.entityIds ++ [id]).getD i 0) =
            { archetypeId := aid, chunkIndex := ci, indexInChunk := i, valid := true }
        rcases Nat.lt_or_ge i ch.header.count with hilt | hige
        · have hil : i < ch.entityIds.length := by rw [hidslen]; exact hilt
          rw [LH.getD_append_left _ _ _ _ hil]
          have hne := hslot_ne_id aid hj ci hci i hilt
          have hres := hInv.resolve aid hj ci hci i hilt
          rw [← hch] at hres hne
          exact ⟨hres.1, by rw [hloc_other _ hne]; exact hres.2⟩
        · have hieq : i = ch.header.count := by omega
          subst hieq
          have hgd : (ch.entityIds ++ [id]).getD ch.header.count 0 = id := by
            rw [← hidslen]
            exact LH.getD_append_last _ _ _
          rw [hgd]
          exact ⟨hid.1, by rw [hloc_id, hnewLoc]⟩
      · rw [hchunk_same_arch cj hcji] at hi ⊢
        have hne := hslot_ne_id aid hj cj hcj i hi
        have hres := hInv.resolve aid hj cj hcj i hi
        refine ⟨hres.1, ?_⟩
        rw [hloc_other _ hne]
        exact hres.2
    · rw [harch_old j hja] at hcj
      rw [hchunk_other j hja cj] at hi ⊢
      have hne := hslot_ne_id j hj cj hcj i hi
      have hres := hInv.resolve j hj cj hcj i hi
      refine ⟨hres.1, ?_⟩
      rw [hloc_other _ hne]
      exact hres.2
  · intro e he hv
    by_cases heid : id = e
    · subst heid
      rw [hloc_id, hnewLoc]
      refine ⟨by rw [hlen]; exact ha, ?_, ?_, ?_⟩
      · show ci < (getArch t aid).chunks.length
        rw [harch_new, hnewArch_len]
        exact hci
      · show (chunkAt t aid ci).header.count > ch.header.count
        rw [hchunk_new, hnewCh]
        show ch.header.count < ch.header.count + 1
        omega
      · show (chunkAt t aid ci).entityIds.getD ch.header.count 0 = id
        rw [hchunk_new, hnewCh]
        show (ch.entityIds ++ [id]).getD ch.header.count 0 = id
        rw [← hidslen]
        exact LH.getD_append_last _ _ _
    · rw [hloc_other e heid] at hv ⊢
      rcases hInv.validLoc e he hv with ⟨h1, h2, h3, h4⟩
      refine ⟨by rw [hlen]; exact h1, ?_, ?_, ?_⟩
      · by_cases hja : aid = (u.GetLocation e).archetypeId
        · rw [← hja, harch_new, hnewArch_len]
          rw [← hja, ← hA] at h2
          exact h2
        · rw [harch_old _ hja]
          exact h2
      · by_cases hja : aid = (u.GetLocation e).archetypeId
        · by_cases hcji : ci = (u.GetLocation e).chunkIndex
          · rw [← hja, ← hcji, hchunk_new, hnewCh]
            rw [← hja, ← hcji, ← hch] at h3
            show (u.GetLocation e).indexInChunk < ch.header.count + 1
            omega
          · rw [← hja, hchunk_same_arch _ hcji]
            rw [← hja] at h3
            exact h3
        · rw [hchunk_other _ hja]
          exact h3
      · by_cases hja : aid = (u.GetLocation e).archetypeId
        · by_cases hcji : ci = (u.GetLocation e).chunkIndex
          · rw [← hja, ← hcji, hchunk_new, hnewCh]
            rw [← hja, ← hcji, ← hch] at h3 h4
            show (ch.entityIds ++ [id]).getD (u.GetLocation e).indexInChunk 0 = e
            have hil : (u.GetLocation e).indexInChunk < ch.entityIds.length := by
              rw [hidslen]
              exact h3
            rw [LH.getD_append_left _ _ _ _ hil]
            exact h4
          · rw [← hja, hchunk_same_arch _ hcji]
            rw [← hja] at h4
            exact h4
        · rw [hchunk_other _ hja]
          exact h4
  · intro e he
    rw [htq] at he
    have hmem : e ∈ u.availableEntities := by rw [hq]; exact List.mem_cons_of_mem id he
    have hne : id ≠ e := fun h => hidrest (h ▸ he)
    rcases hInv.freeInv e hmem with ⟨h1, h2⟩
    exact ⟨h1, by rw [hloc_other e hne]; exact h2⟩
  · rw [htq]
    exact hrestnodup
  · rw [htlive, htloc, hInv.living]
    have hvalid_old : (fun l => l.valid) (u.entityLocations.getD id invalidLocation) = false :=
      hid.2
    rw [LH.countP_set_flip_up (fun l => l.valid) u.entityLocations id newLoc invalidLocation
      (by rw [hInv.locLen]; exact hid.1) hvalid_old (by rw [hnewLoc])]

theorem inv_alloc (u : EntityManager) (hInv : ManagerInv u) (aid : Nat)
    (ha : aid < u.archetypes.length) :
    ManagerInv (u.AllocateChunk aid) := by
  set A := getArch u aid with hA
  set fresh : MemoryChunk := mkMemoryChunk aid A.entitiesPerChunk with hfresh
  set newArch : Archetype := ({ A with chunks := A.chunks ++ [fresh] }) with hnewArch
  set t := u.AllocateChunk aid with htdef
  have htarch : t.archetypes = u.archetypes.set aid newArch := rfl
  have htloc : t.entityLocations = u.entityLocations := rfl
  have htq : t.availableEntities = u.availableEntities := rfl
  have htlive : t.livingEntityCount = u.livingEntityCount := rfl
  have hlen : t.archetypes.length = u.archetypes.length := by
    rw [htarch, List.length_set]
  have harch_new : getArch t aid = newArch := by
    show t.archetypes.getD aid emptyArchetype = newArch
    rw [htarch]
    exact LH.getD_set_self _ _ _ _ ha
  have harch_old : ∀ j, aid ≠ j → getArch t j = getArch u j := by
    intro j hj
    show t.archetypes.getD j emptyArchetype = u.archetypes.getD j emptyArchetype
    rw [htarch]
    exact LH.getD_set_ne _ _ _ _ _ hj
  have hnewArch_len : newArch.chunks.length = A.chunks.length + 1 := by
    rw [hnewArch]
    show (A.chunks ++ [fresh]).length = A.chunks.length + 1
    simp
  have hchunk_old : ∀ cj, cj < A.chunks.length → chunkAt t aid cj = chunkAt u aid cj := by
    intro cj hcj
    unfold chunkAt
    rw [harch_new, hnewArch, ← hA]
    show (A.chunks ++ [fresh]).getD cj emptyChunk = A.chunks.getD cj emptyChunk
    exact LH.getD_append_left _ _ _ _ hcj
  have hchunk_fresh : chunkAt t aid A.chunks.length = fresh := by
    unfold chunkAt
    rw [harch_new, hnewArch]
    show (A.chunks ++ [fresh]).getD A.chunks.length emptyChunk = fresh
    exact LH.getD_append_last _ _ _
  have hchunk_other : ∀ j, aid ≠ j → ∀ cj, chunkAt t j cj = chunkAt u j cj := by
    intro j hj cj
    unfold chunkAt
    rw [harch_old j hj]
  have hloc : ∀ e, t.GetLocation e = u.GetLocation e := fun e => rfl
  have hsplit : ∀ cj, cj < newArch.chunks.length → cj < A.chunks.length ∨ cj = A.chunks.length := by
    intro cj hcj
    rw [hnewArch_len] at hcj
    omega
  refine ⟨?_, ?_, ?_, ?_, ?_, ?_, ?_, ?_, ?_⟩
  · rw [htloc]
    exact hInv.locLen
  · intro j hj cj hcj
    rw [hlen] at hj
    by_cases hja : aid = j
    · subst hja
      rw [harch_new] at hcj
      rcases hsplit cj hcj with h1 | h1
      · rw [hchunk_old cj h1]
        exact hInv.idsLen aid hj cj h1
      · subst h1
        rw [hchunk_fresh, hfresh]
        rfl
    · rw [harch_old j hja] at hcj
      rw [hchunk_other j hja cj]
      exact hInv.idsLen j hj cj hcj
  · intro j hj cj hcj
    rw [hlen] at hj
    by_cases hja : aid = j
    · subst hja
      rw [harch_new] at hcj
      rw [harch_new]
      have hepc : newArch.entitiesPerChunk = A.entitiesPerChunk := by rw [hnewArch]
      rw [hepc]
      rcases hsplit cj hcj with h1 | h1
      · rw [hchunk_old cj h1]
        exact hInv.capEq aid hj cj h1
      · subst h1
        rw [hchunk_fresh, hfresh]
        rfl
    · rw [harch_old j hja] at hcj
      rw [hchunk_other j hja cj, harch_old j hja]
      exact hInv.capEq j hj cj hcj
  · intro j hj cj hcj
    rw [hlen] at hj
    by_cases hja : aid = j
    · subst hja
      rw [harch_new] at hcj
      rcases hsplit cj hcj with h1 | h1
      · rw [hchunk_old cj h1]
        exact hInv.countLe aid hj cj h1
      · subst h1
        rw [hchunk_fresh, hfresh]
        exact Nat.zero_le _
    · rw [harch_old j hja] at hcj
      rw [hchunk_other j hja cj]
      exact hInv.countLe j hj cj hcj
  · intro j hj cj hcj i hi
    rw [hlen] at hj
    by_cases hja : aid = j
    · subst hja
      rw [harch_new] at hcj
      rcases hsplit cj hcj with h1 | h1
      · rw [hchunk_old cj h1] at hi ⊢
        rw [hloc]
        exact hInv.resolve aid hj cj h1 i hi
      · subst h1
        rw [hchunk_fresh, hfresh] at hi
        simp [mkMemoryChunk] at hi
    · rw [harch_old j hja] at hcj
      rw [hchunk_other j hja cj] at hi ⊢
      rw [hloc]
      exact hInv.resolve j hj cj hcj i hi
  · intro e he hv
    rw [hloc] at hv ⊢
    rcases hInv.validLoc e he hv with ⟨h1, h2, h3, h4⟩
    refine ⟨by rw [hlen]; exact h1, ?_, ?_, ?_⟩
    · by_cases hja : aid = (u.GetLocation e).archetypeId
      · rw [← hja, harch_new, hnewArch_len]
        rw [← hja, ← hA] at h2
        omega
      · rw [harch_old _ hja]
        exact h2
    · by_cases hja : aid = (u.GetLocation e).archetypeId
      · rw [← hja] at h2 h3 ⊢
        rw [← hA] at h2
        rw [hchunk_old _ h2]
        exact h3
      · rw [hchunk_other _ hja]
        exact h3
    · by_cases hja : aid = (u.GetLocation e).archetypeId
      · rw [← hja] at h2 h4 ⊢
        rw [← hA] at h2
        rw [hchunk_old _ h2]
        exact h4
      · rw [hchunk_other _ hja]
        exact h4
  · intro e he
    rw [htq] at he
    rw [hloc]
    exact hInv.freeInv e he
  · rw [htq]
    exact hInv.freeNodup
  · rw [htlive, htloc]
    exact hInv.living

theorem createEntity_eq_found (s : EntityManager) (aid ci : Nat)
    (hq : ¬ s.availableEntities = []) (ha : aid < s.archetypes.length)
    (hf : findFreeChunk (getArch s aid).chunks = some ci) :
    s.CreateEntity aid =
      (insertEntityState s aid ci (s.availableEntities.headD 0) s.availableEntities.tail,
       s.availableEntities.headD 0) := by
  unfold EntityManager.CreateEntity
  rw [if_neg hq, if_neg (Nat.not_le.mpr ha)]
  unfold getArch at hf
  simp only [getArch]
  rw [hf]
  rfl

theorem getArch_alloc_self (u : EntityManager) (aid : Nat) (ha : aid < u.archetypes.length) :
    getArch (u.AllocateChunk aid) aid =
      ({ getArch u aid with chunks := (getArch u aid).chunks ++
        [mkMemoryChunk aid (getArch u aid).entitiesPerChunk] }) := by
  show ((u.AllocateChunk aid).archetypes).getD aid emptyArchetype = _
  show (u.archetypes.set aid _).getD aid emptyArchetype = _
  exact LH.getD_set_self _ _ _ _ ha

theorem chunkAt_alloc_fresh (u : EntityManager) (aid : Nat) (ha : aid < u.archetypes.length) :
    chunkAt (u.AllocateChunk aid) aid (getArch u aid).chunks.length =
      mkMemoryChunk aid (getArch u aid).entitiesPerChunk := by
  unfold chunkAt
  rw [getArch_alloc_self u aid ha]
  exact LH.getD_append_last _ _ _

theorem createEntity_eq_alloc (s : EntityManager) (aid : Nat)
    (hq : ¬ s.availableEntities = []) (ha : aid < s.archetypes.length)
    (hf : findFreeChunk (getArch s aid).chunks = none) :
    s.CreateEntity aid =
      (insertEntityState (s.AllocateChunk aid) aid (getArch s aid).chunks.length
        (s.availableEntities.headD 0) s.availableEntities.tail,
       s.availableEntities.headD 0) := by
  unfold EntityManager.CreateEntity
  rw [if_neg hq, if_neg (Nat.not_le.mpr ha)]
  unfold getArch at hf
  simp only [getArch]
  rw [hf]
  rfl

/-- CreateEntity preserves the invariant. -/
theorem inv_create (s : EntityManager) (hInv : ManagerInv s) (aid : Nat) :
    ManagerInv (s.CreateEntity aid).1 := by
  by_cases hq : s.availableEntities = []
  · unfold EntityManager.CreateEntity
    rw [if_pos hq]
    exact hInv
  · by_cases ha : s.archetypes.length ≤ aid
    · unfold EntityManager.CreateEntity
      rw [if_neg hq, if_pos ha]
      exact hInv
    · have ha' : aid < s.archetypes.length := Nat.not_le.mp ha
      rcases hql : s.availableEntities with _ | ⟨id, rest⟩
      · exact absurd hql hq
      cases hf : findFreeChunk (getArch s aid).chunks with
      | some ci =>
        rw [createEntity_eq_found s aid ci hq ha' hf]
        rcases findFreeChunk_some _ _ hf with ⟨hci, hcap⟩
        simp only [hql, List.headD_cons, List.tail_cons]
        refine inv_insert_core s hInv aid ci id rest hql ha' hci (Or.inl ?_)
        exact hcap
      | none =>
        rw [createEntity_eq_alloc s aid hq ha' hf]
        simp only [hql, List.headD_cons, List.tail_cons]
        have hInv2 := inv_alloc s hInv aid ha'
        have hq2 : (s.AllocateChunk aid).availableEntities = id :: rest := hql
        have ha2 : aid < (s.AllocateChunk aid).archetypes.length := by
          show aid < (s.archetypes.set aid _).length
          rw [List.length_set]
          exact ha'
        have hci2 : (getArch s aid).chunks.length <
            (getArch (s.AllocateChunk aid) aid).chunks.length := by
          rw [getArch_alloc_self s aid ha']
          simp
        refine inv_insert_core (s.AllocateChunk aid) hInv2 aid
          (getArch s aid).chunks.length id rest hq2 ha2 hci2 (Or.inr ?_)
        rw [chunkAt_alloc_fresh s aid ha']
        rfl

theorem destroyEntity_eq_last (s : EntityManager) (e : Nat)
    (hm : ¬ MAX_ENTITIES ≤ e) (hv : ¬ (s.GetLocation e).valid = false)
    (hl : (s.GetLocation e).indexInChunk =
      (chunkAt s (s.GetLocation e).archetypeId (s.GetLocation e).chunkIndex).header.count - 1) :
    s.DestroyEntity e = destroyLastState s e := by
  unfold chunkAt at hl
  simp only [EntityManager.DestroyEntity, destroyLastState, if_neg hm, if_neg hv]
  rw [if_pos hl]

theorem destroyEntity_eq_swap (s : EntityManager) (e : Nat)
    (hm : ¬ MAX_ENTITIES ≤ e) (hv : ¬ (s.GetLocation e).valid = false)
    (hl : ¬ (s.GetLocation e).indexInChunk =
      (chunkAt s (s.GetLocation e).archetypeId (s.GetLocation e).chunkIndex).header.count - 1) :
    s.DestroyEntity e = destroySwapState s e := by
  unfold chunkAt at hl
  simp only [EntityManager.DestroyEntity, destroySwapState, if_neg hm, if_neg hv]
  rw [if_neg hl]

theorem inv_destroy_last (s : EntityManager) (hInv : ManagerInv s) (e : Nat)
    (he : e < MAX_ENTITIES) (hv : (s.GetLocation e).valid = true)
    (hl : (s.GetLocation e).indexInChunk =
      (chunkAt s (s.GetLocation e).archetypeId (s.GetLocation e).chunkIndex).header.count - 1) :
    ManagerInv (destroyLastState s e) := by
  rcases hInv.validLoc e he hv with ⟨ha, hci, hd, hide⟩
  set aid := (s.GetLocation e).archetypeId with haid
  set ci := (s.GetLocation e).chunkIndex with hcid
  set d := (s.GetLocation e).indexInChunk with hdd
  set A := getArch s aid with hA
  set ch := chunkAt s aid ci with hch
  have hidslen : ch.entityIds.length = ch.header.count := hInv.idsLen aid ha ci hci
  have hcount1 : 1 ≤ ch.header.count := by omega
  set chunk2 : MemoryChunk := ({ ch with header.count := ch.header.count - 1, entityIds := ch.entityIds.dropLast }) with hchunk2
  set newArch : Archetype := ({ A with chunks := A.chunks.set ci chunk2 }) with hnewArch
  set dead : EntityLocation := ({ s.GetLocation e with valid := false }) with hdead
  set t := destroyLastState s e with htdef
  have htarch : t.archetypes = s.archetypes.set aid newArch := rfl
  have htloc : t.entityLocations = s.entityLocations.set e dead := rfl
  have htq : t.availableEntities = s.availableEntities ++ [e] := rfl
  have htlive : t.livingEntityCount = s.livingEntityCount - 1 := rfl
  have hlen : t.archetypes.length = s.archetypes.length := by
    rw [htarch, List.length_set]
  have harch_new : getArch t aid = newArch := by
    show t.archetypes.getD aid emptyArchetype = newArch
    rw [htarch]
    exact LH.getD_set_self _ _ _ _ ha
  have harch_old : ∀ j, aid ≠ j → getArch t j = getArch s j := by
    intro j hj
    show t.archetypes.getD j emptyArchetype = s.archetypes.getD j emptyArchetype
    rw [htarch]
    exact LH.getD_set_ne _ _ _ _ _ hj
  have hnewArch_len : newArch.chunks.length = A.chunks.length := by
    rw [hnewArch]
    show (A.chunks.set ci chunk2).length = A.chunks.length
    exact List.length_set _ _ _
  have hchunk_new : chunkAt t aid ci = chunk2 := by
    unfold chunkAt
    rw [harch_new, hnewArch]
    exact LH.getD_set_self _ _ _ _ hci
  have hchunk_same_arch : ∀ cj, ci ≠ cj → chunkAt t aid cj = chunkAt s aid cj := by
    intro cj hj
    unfold chunkAt
    rw [harch_new, hnewArch]
    show (A.chunks.set ci chunk2).getD cj emptyChunk = _
    exact LH.getD_set_ne _ _ _ _ _ hj
  have hchunk_other : ∀ j, aid ≠ j → ∀ cj, chunkAt t j cj = chunkAt s j cj := by
    intro j hj cj
    unfold chunkAt
    rw [harch_old j hj]
  have hloc_e : t.GetLocation e = dead := by
    show t.entityLocations.getD e invalidLocation = dead
    rw [htloc]
    exact LH.getD_set_self _ _ _ _ (by rw [hInv.locLen]; exact he)
  have hloc_other : ∀ x, e ≠ x → t.GetLocation x = s.GetLocation x := by
    intro x hx
    show t.entityLocations.getD x invalidLocation = s.entityLocations.getD x invalidLocation
    rw [htloc]
    exact LH.getD_set_ne _ _ _ _ _ hx
  have hslot_e : ∀ j, j < s.archetypes.length → ∀ cj, cj < (getArch s j).chunks.length →
      ∀ i, i < (chunkAt s j cj).header.count →
      (chunkAt s j cj).entityIds.getD i 0 = e → j = aid ∧ cj = ci ∧ i = d := by
    intro j hj cj hcj i hi heq
    have hres := (hInv.resolve j hj cj hcj i hi).2
    rw [heq] at hres
    refine ⟨?_, ?_, ?_⟩
    · rw [haid, hres]
    · rw [hcid, hres]
    · rw [hdd, hres]
  have hslot_ne_e : ∀ j, j < s.archetypes.length → ∀ cj, cj < (getArch s j).chunks.length →
      ∀ i, i < (chunkAt s j cj).header.count →
      (¬(j = aid ∧ cj = ci ∧ i = d)) → e ≠ (chunkAt s j cj).entityIds.getD i 0 := by
    intro j hj cj hcj i hi hne heq
    exact hne (hslot_e j hj cj hcj i hi heq.symm)
  have hinvalid_ne : ∀ y, (s.GetLocation y).valid = false → e ≠ y := by
    intro y hy hxy
    rw [← hxy] at hy
    rw [hv] at hy
    exact Bool.true_eq_false.mp hy
  refine ⟨?_, ?_, ?_, ?_, ?_, ?_, ?_, ?_, ?_⟩
  · rw [htloc, List.length_set]
    exact hInv.locLen
  · intro j hj cj hcj
    rw [hlen] at hj
    by_cases hja : aid = j
    · subst hja
      rw [harch_new, hnewArch_len] at hcj
      by_cases hcji : ci = cj
      · subst hcji
        rw [hchunk_new, hchunk2]
        show ch.entityIds.dropLast.length = ch.header.count - 1
        rw [List.length_dropLast, hidslen]
      · rw [hchunk_same_arch cj hcji]
        exact hInv.idsLen aid hj cj hcj
    · rw [harch_old j hja] at hcj
      rw [hchunk_other j hja cj]
      exact hInv.idsLen j hj cj hcj
  · intro j hj cj hcj
    rw [hlen] at hj
    by_cases hja : aid = j
    · subst hja
      rw [harch_new, hnewArch_len] at hcj
      rw [harch_new]
      have hepc : newArch.entitiesPerChunk = A.entitiesPerChunk := by rw [hnewArch]
      rw [hepc]
      by_cases hcji : ci = cj
      · subst hcji
        rw [hchunk_new, hchunk2]
        show ch.header.capacity = A.entitiesPerChunk
        exact hInv.capEq aid hj ci hci
      · rw [hchunk_same_arch cj hcji]
        exact hInv.capEq aid hj cj hcj
    · rw [harch_old j hja] at hcj
      rw [hchunk_other j hja cj, harch_old j hja]
      exact hInv.capEq j hj cj hcj
  · intro j hj cj hcj
    rw [hlen] at hj
    by_cases hja : aid = j
    · subst hja
      rw [harch_new, hnewArch_len] at hcj
      by_cases hcji : ci = cj
      · subst hcji
        rw [hchunk_new, hchunk2]
        show ch.header.count - 1 ≤ max ch.header.capacity 1
        have := hInv.countLe aid hj ci hci
        rw [← hch] at this
        omega
      · rw [hchunk_same_arch cj hcji]
        exact hInv.countLe aid hj cj hcj
    · rw [harch_old j hja] at hcj
      rw [hchunk_other j hja cj]
      exact hInv.countLe j hj cj hcj
  · intro j hj cj hcj i hi
    rw [hlen] at hj
    by_cases hja : aid = j
    · subst hja
      rw [harch_new, hnewArch_len] at hcj
      by_cases hcji : ci = cj
      · subst hcji
        rw [hchunk_new, hchunk2] at hi ⊢
        have hi2 : i < ch.header.count - 1 := hi
        show (ch.entityIds.dropLast.getD i 0 < MAX_ENTITIES) ∧ _
        have hgd : ch.entityIds.dropLast.getD i 0 = ch.entityIds.getD i 0 :=
          LH.getD_dropLast _ _ _ (by omega)
        rw [hgd]
        have hi3 : i < ch.header.count := by omega
        have hres := hInv.resolve aid hj ci hci i hi3
        rw [← hch] at hres
        have hne : e ≠ ch.entityIds.getD i 0 :=
          hslot_ne_e aid hj ci hci i hi3 (by rintro ⟨hx1, hx2, hx3⟩; omega)
        exact ⟨hres.1, by rw [hloc_other _ hne]; exact hres.2⟩
      · rw [hchunk_same_arch cj hcji] at hi ⊢
        have hres := hInv.resolve aid hj cj hcj i hi
        have hne : e ≠ (chunkAt s aid cj).entityIds.getD i 0 :=
          hslot_ne_e aid hj cj hcj i hi (fun hcon => hcji hcon.2.1.symm)
        exact ⟨hres.1, by rw [hloc_other _ hne]; exact hres.2⟩
    · rw [harch_old j hja] at hcj
      rw [hchunk_other j hja cj] at hi ⊢
      have hres := hInv.resolve j hj cj hcj i hi
      have hne : e ≠ (chunkAt s j cj).entityIds.getD i 0 :=
        hslot_ne_e j hj cj hcj i hi (fun hcon => hja hcon.1.symm)
      exact ⟨hres.1, by rw [hloc_other _ hne]; exact hres.2⟩
  · intro x hx hvx
    by_cases hex : e = x
    · subst hex
      rw [hloc_e, hdead] at hvx
      simp at hvx
    · rw [hloc_other x hex] at hvx ⊢
      rcases hInv.validLoc x hx hvx with ⟨h1, h2, h3, h4⟩
      refine ⟨by rw [hlen]; exact h1, ?_, ?_, ?_⟩
      · by_cases hja : aid = (s.GetLocation x).archetypeId
        · rw [← hja, harch_new, hnewArch_len]
          rw [← hja, ← hA] at h2
          exact h2
        · rw [harch_old _ hja]
          exact h2
      · by_cases hja : aid = (s.GetLocation x).archetypeId
        · by_cases hcji : ci = (s.GetLocation x).chunkIndex
          · rw [← hja, ← hcji, hchunk_new, hchunk2]
            rw [← hja, ← hcji, ← hch] at h3 h4
            show (s.GetLocation x).indexInChunk < ch.header.count - 1
            have hne : (s.GetLocation x).indexInChunk ≠ d := by
              intro hcon
              rw [hcon] at h4
              rw [hide] at h4
              exact hex h4
            omega
          · rw [← hja, hchunk_same_arch _ hcji]
            rw [← hja] at h3
            exact h3
        · rw [hchunk_other _ hja]
          exact h3
      · by_cases hja : aid = (s.GetLocation x).archetypeId
        · by_cases hcji : ci = (s.GetLocation x).chunkIndex
          · rw [← hja, ← hcji, hchunk_new, hchunk2]
            rw [← hja, ← hcji, ← hch] at h3 h4
            show ch.entityIds.dropLast.getD (s.GetLocation x).indexInChunk 0 = x
            have hne : (s.GetLocation x).indexInChunk ≠ d := by
              intro hcon
              rw [hcon] at h4
              rw [hide] at h4
              exact hex h4
            have hlt : (s.GetLocation x).indexInChunk + 1 < ch.entityIds.length := by
              rw [hidslen]
              omega
            rw [LH.getD_dropLast _ _ _ hlt]
            exact h4
          · rw [← hja, hchunk_same_arch _ hcji]
            rw [← hja] at h4
            exact h4
        · rw [hchunk_other _ hja]
          exact h4
  · intro y hy
    rw [htq] at hy
    rcases List.mem_append.mp hy with hy1 | hy1
    · rcases hInv.freeInv y hy1 with ⟨h1, h2⟩
      exact ⟨h1, by rw [hloc_other y (hinvalid_ne y h2)]; exact h2⟩
    · have hye : y = e := List.mem_singleton.mp hy1
      subst hye
      refine ⟨he, ?_⟩
      rw [hloc_e, hdead]
  · rw [htq]
    refine LH.nodup_append_singleton _ _ hInv.freeNodup ?_
    intro hmem
    rcases hInv.freeInv e hmem with ⟨_, h2⟩
    rw [hv] at h2
    exact Bool.true_eq_false.mp h2
  · rw [htlive, htloc, hInv.living]
    have hflip := LH.countP_set_flip_down (fun l => l.valid) s.entityLocations e dead
      invalidLocation (by rw [hInv.locLen]; exact he) hv (by rw [hdead])
    omega

theorem inv_destroy_swap (s : EntityManager) (hInv : ManagerInv s) (e : Nat)
    (he : e < MAX_ENTITIES) (hv : (s.GetLocation e).valid = true)
    (hl : ¬ (s.GetLocation e).indexInChunk =
      (chunkAt s (s.GetLocation e).archetypeId (s.GetLocation e).chunkIndex).header.count - 1) :
    ManagerInv (destroySwapState s e) := by
  rcases hInv.validLoc e he hv with ⟨ha, hci, hd, hide⟩
  set aid := (s.GetLocation e).archetypeId with haid
  set ci := (s.GetLocation e).chunkIndex with hcid
  set d := (s.GetLocation e).indexInChunk with hdd
  set A := getArch s aid with hA
  set ch := chunkAt s aid ci with hch
  have hidslen : ch.entityIds.length = ch.header.count := hInv.idsLen aid ha ci hci
  have hcount1 : 1 ≤ ch.header.count := by omega
  set lastIndex := ch.header.count - 1 with hlast
  have hdlt : d < lastIndex := by omega
  set moved := ch.entityIds.getD lastIndex 0 with hmoved
  have hlastlt : lastIndex < ch.header.count := by omega
  have hmvres := hInv.resolve aid ha ci hci lastIndex hlastlt
  have hmvMAX : moved < MAX_ENTITIES := hmvres.1
  have hmvloc : s.GetLocation moved =
      ({ archetypeId := aid, chunkIndex := ci, indexInChunk := lastIndex, valid := true }) :=
    hmvres.2
  have hmv_ne_e : moved ≠ e := by
    intro hcon
    rw [hcon] at hmvloc
    have := congrArg EntityLocation.indexInChunk hmvloc
    rw [← hdd] at this
    simp at this
    omega
  have he_ne_mv : e ≠ moved := fun h => hmv_ne_e h.symm
  set ml1 : EntityLocation := ({ s.GetLocation moved with indexInChunk := d }) with hml1def
  have hml1 : ml1 =
      ({ archetypeId := aid, chunkIndex := ci, indexInChunk := d, valid := true }) := by
    rw [hml1def, hmvloc]
  set chunk2 : MemoryChunk := ({ ch with
    header.count := ch.header.count - 1,
    data := copyComponents A lastIndex d ch.data,
    entityIds := (ch.entityIds.set d moved).dropLast }) with hchunk2
  set newArch : Archetype := ({ A with chunks := A.chunks.set ci chunk2 }) with hnewArch
  set L1 := s.entityLocations.set moved ml1 with hL1
  have hL1len : L1.length = MAX_ENTITIES := by
    rw [hL1, List.length_set]
    exact hInv.locLen
  have hL1_e : L1.getD e invalidLocation = s.GetLocation e := by
    rw [hL1]
    exact LH.getD_set_ne _ _ _ _ _ hmv_ne_e
  set dead : EntityLocation := ({ s.GetLocation e with valid := false }) with hdead
  set t := destroySwapState s e with htdef
  have htarch : t.archetypes = s.archetypes.set aid newArch := rfl
  have htloc : t.entityLocations = L1.set e ({ L1.getD e invalidLocation with valid := false }) := rfl
  have htloc2 : t.entityLocations = L1.set e dead := by
    rw [htloc, hL1_e]
  have htq : t.availableEntities = s.availableEntities ++ [e] := rfl
  have htlive : t.livingEntityCount = s.livingEntityCount - 1 := rfl
  have hlen : t.archetypes.length = s.archetypes.length := by
    rw [htarch, List.length_set]
  have harch_new : getArch t aid = newArch := by
    show t.archetypes.getD aid emptyArchetype = newArch
    rw [htarch]
    exact LH.getD_set_self _ _ _ _ ha
  have harch_old : ∀ j, aid ≠ j → getArch t j = getArch s j := by
    intro j hj
    show t.archetypes.getD j emptyArchetype = s.archetypes.getD j emptyArchetype
    rw [htarch]
    exact LH.getD_set_ne _ _ _ _ _ hj
  have hnewArch_len : newArch.chunks.length = A.chunks.length := by
    rw [hnewArch]
    show (A.chunks.set ci chunk2).length = A.chunks.length
    exact List.length_set _ _ _
  have hchunk_new : chunkAt t aid ci = chunk2 := by
    unfold chunkAt
    rw [harch_new, hnewArch]
    exact LH.getD_set_self _ _ _ _ hci
  have hchunk_same_arch : ∀ cj, ci ≠ cj → chunkAt t aid cj = chunkAt s aid cj := by
    intro cj hj
    unfold chunkAt
    rw [harch_new, hnewArch]
    show (A.chunks.set ci chunk2).getD cj emptyChunk = _
    exact LH.getD_set_ne _ _ _ _ _ hj
  have hchunk_other : ∀ j, aid ≠ j → ∀ cj, chunkAt t j cj = chunkAt s j cj := by
    intro j hj cj
    unfold chunkAt
    rw [harch_old j hj]
  have hloc_e : t.GetLocation e = dead := by
    show t.entityLocations.getD e invalidLocation = dead
    rw [htloc2]
    exact LH.getD_set_self _ _ _ _ (by rw [hL1len]; exact he)
  have hloc_moved : t.GetLocation moved = ml1 := by
    show t.entityLocations.getD moved invalidLocation = ml1
    rw [htloc2]
    rw [LH.getD_set_ne _ _ _ _ _ he_ne_mv]
    rw [hL1]
    exact LH.getD_set_self _ _ _ _ (by rw [hInv.locLen]; exact hmvMAX)
  have hloc_other : ∀ x, e ≠ x → moved ≠ x → t.GetLocation x = s.GetLocation x := by
    intro x hex hmx
    show t.entityLocations.getD x invalidLocation = s.entityLocations.getD x invalidLocation
    rw [htloc2]
    rw [LH.getD_set_ne _ _ _ _ _ hex]
    rw [hL1]
    exact LH.getD_set_ne _ _ _ _ _ hmx
  have hslot_e : ∀ j, j < s.archetypes.length → ∀ cj, cj < (getArch s j).chunks.length →
      ∀ i, i < (chunkAt s j cj).header.count →
      (chunkAt s j cj).entityIds.getD i 0 = e → j = aid ∧ cj = ci ∧ i = d := by
    intro j hj cj hcj i hi heq
    have hres := (hInv.resolve j hj cj hcj i hi).2
    rw [heq] at hres
    refine ⟨?_, ?_, ?_⟩
    · rw [haid, hres]
    · rw [hcid, hres]
    · rw [hdd, hres]
  have hslot_m : ∀ j, j < s.archetypes.length → ∀ cj, cj < (getArch s j).chunks.length →
      ∀ i, i < (chunkAt s j cj).header.count →
      (chunkAt s j cj).entityIds.getD i 0 = moved → j = aid ∧ cj = ci ∧ i = lastIndex := by
    intro j hj cj hcj i hi heq
    have hres := (hInv.resolve j hj cj hcj i hi).2
    rw [heq] at hres
    rw [hmvloc] at hres
    have h1 := congrArg EntityLocation.archetypeId hres
    have h2 := congrArg EntityLocation.chunkIndex hres
    have h3 := congrArg EntityLocation.indexInChunk hres
    simp at h1 h2 h3
    exact ⟨h1.symm, h2.symm, h3.symm⟩
  have hinvalid_ne : ∀ y, (s.GetLocation y).valid = false → e ≠ y := by
    intro y hy hxy
    rw [← hxy] at hy
    rw [hv] at hy
    exact Bool.true_eq_false.mp hy
  have hinvalid_ne_mv : ∀ y, (s.GetLocation y).valid = false → moved ≠ y := by
    intro y hy hxy
    rw [← hxy] at hy
    rw [hmvloc] at hy
    simp at hy
  have hids2len : chunk2.entityIds.length = ch.header.count - 1 := by
    rw [hchunk2]
    show ((ch.entityIds.set d moved).dropLast).length = ch.header.count - 1
    rw [List.length_dropLast, List.length_set, hidslen]
  have hids2_getD : ∀ i, i < ch.header.count - 1 →
      chunk2.entityIds.getD i 0 = (ch.entityIds.set d moved).getD i 0 := by
    intro i hi
    rw [hchunk2]
    show ((ch.entityIds.set d moved).dropLast).getD i 0 = _
    refine LH.getD_dropLast _ _ _ ?_
    rw [List.length_set, hidslen]
    omega
  have hids2_d : chunk2.entityIds.getD d 0 = moved := by
    rw [hids2_getD d (by omega)]
    exact LH.getD_set_self _ _ _ _ (by rw [hidslen]; omega)
  have hids2_other : ∀ i, i < ch.header.count - 1 → d ≠ i →
      chunk2.entityIds.getD i 0 = ch.entityIds.getD i 0 := by
    intro i hi hdi
    rw [hids2_getD i hi]
    exact LH.getD_set_ne _ _ _ _ _ hdi
  refine ⟨?_, ?_, ?_, ?_, ?_, ?_, ?_, ?_, ?_⟩
  · rw [htloc2, List.length_set]
    exact hL1len
  · intro j hj cj hcj
    rw [hlen] at hj
    by_cases hja : aid = j
    · subst hja
      rw [harch_new, hnewArch_len] at hcj
      by_cases hcji : ci = cj
      · subst hcji
        rw [hchunk_new]
        rw [hids2len]
      · rw [hchunk_same_arch cj hcji]
        exact hInv.idsLen aid hj cj hcj
    · rw [harch_old j hja] at hcj
      rw [hchunk_other j hja cj]
      exact hInv.idsLen j hj cj hcj
  · intro j hj cj hcj
    rw [hlen] at hj
    by_cases hja : aid = j
    · subst hja
      rw [harch_new, hnewArch_len] at hcj
      rw [harch_new]
      have hepc : newArch.entitiesPerChunk = A.entitiesPerChunk := by rw [hnewArch]
      rw [hepc]
      by_cases hcji : ci = cj
      · subst hcji
        rw [hchunk_new, hchunk2]
        show ch.header.capacity = A.entitiesPerChunk
        exact hInv.capEq aid hj ci hci
      · rw [hchunk_same_arch cj hcji]
        exact hInv.capEq aid hj cj hcj
    · rw [harch_old j hja] at hcj
      rw [hchunk_other j hja cj, harch_old j hja]
      exact hInv.capEq j hj cj hcj
  · intro j hj cj hcj
    rw [hlen] at hj
    by_cases hja : aid = j
    · subst hja
      rw [harch_new, hnewArch_len] at hcj
      by_cases hcji : ci = cj
      · subst hcji
        rw [hchunk_new, hchunk2]
        show ch.header.count - 1 ≤ max ch.header.capacity 1
        have := hInv.countLe aid hj ci hci
        rw [← hch] at this
        omega
      · rw [hchunk_same_arch cj hcji]
        exact hInv.countLe aid hj cj hcj
    · rw [harch_old j hja] at hcj
      rw [hchunk_other j hja cj]
      exact hInv.countLe j hj cj hcj
  · intro j hj cj hcj i hi
    rw [hlen] at hj
    by_cases hja : aid = j
    · subst hja
      rw [harch_new, hnewArch_len] at hcj
      by_cases hcji : ci = cj
      · subst hcji
        rw [hchunk_new] at hi ⊢
        have hi2 : i < ch.header.count - 1 := by
          rw [hchunk2] at hi
          exact hi
        by_cases hdi : d = i
        · subst hdi
          rw [hids2_d]
          refine ⟨hmvMAX, ?_⟩
          rw [hloc_moved, hml1]
        · rw [hids2_other i hi2 hdi]
          have hi3 : i < ch.header.count := by omega
          have hres := hInv.resolve aid hj ci hci i hi3
          have hne_e : e ≠ ch.entityIds.getD i 0 := by
            intro hcon
            rcases hslot_e aid hj ci hci i hi3 hcon.symm with ⟨-, -, hcc⟩
            exact hdi hcc.symm
          have hne_m : moved ≠ ch.entityIds.getD i 0 := by
            intro hcon
            rcases hslot_m aid hj ci hci i hi3 hcon.symm with ⟨-, -, hcc⟩
            omega
          refine ⟨hres.1, ?_⟩
          rw [hloc_other _ hne_e hne_m]
          exact hres.2
      · rw [hchunk_same_arch cj hcji] at hi ⊢
        have hres := hInv.resolve aid hj cj hcj i hi
        have hne_e : e ≠ (chunkAt s aid cj).entityIds.getD i 0 := by
          intro hcon
          rcases hslot_e aid hj cj hcj i hi hcon.symm with ⟨-, hcc, -⟩
          exact hcji hcc.symm
        have hne_m : moved ≠ (chunkAt s aid cj).entityIds.getD i 0 := by
          intro hcon
          rcases hslot_m aid hj cj hcj i hi hcon.symm with ⟨-, hcc, -⟩
          exact hcji hcc.symm
        refine ⟨hres.1, ?_⟩
        rw [hloc_other _ hne_e hne_m]
        exact hres.2
    · rw [harch_old j hja] at hcj
      rw [hchunk_other j hja cj] at hi ⊢
      have hres := hInv.resolve j hj cj hcj i hi
      have hne_e : e ≠ (chunkAt s j cj).entityIds.getD i 0 := by
        intro hcon
        rcases hslot_e j hj cj hcj i hi hcon.symm with ⟨hcc, -, -⟩
        exact hja hcc.symm
      have hne_m : moved ≠ (chunkAt s j cj).entityIds.getD i 0 := by
        intro hcon
        rcases hslot_m j hj cj hcj i hi hcon.symm with ⟨hcc, -, -⟩
        exact hja hcc.symm
      refine ⟨hres.1, ?_⟩
      rw [hloc_other _ hne_e hne_m]
      exact hres.2
  · intro x hx hvx
    by_cases hex : e = x
    · subst hex
      rw [hloc_e, hdead] at hvx
      simp at hvx
    · by_cases hmx : moved = x
      · subst hmx
        rw [hloc_moved, hml1]
        refine ⟨by rw [hlen]; exact ha, ?_, ?_, ?_⟩
        · show ci < (getArch t aid).chunks.length
          rw [harch_new, hnewArch_len]
          exact hci
        · show d < (chunkAt t aid ci).header.count
          rw [hchunk_new, hchunk2]
          show d < ch.header.count - 1
          omega
        · show (chunkAt t aid ci).entityIds.getD d 0 = moved
          rw [hchunk_new]
          exact hids2_d
      · rw [hloc_other x hex hmx] at hvx ⊢
        rcases hInv.validLoc x hx hvx with ⟨h1, h2, h3, h4⟩
        refine ⟨by rw [hlen]; exact h1, ?_, ?_, ?_⟩
        · by_cases hja : aid = (s.GetLocation x).archetypeId
          · rw [← hja, harch_new, hnewArch_len]
            rw [← hja, ← hA] at h2
            exact h2
          · rw [harch_old _ hja]
            exact h2
        · by_cases hja : aid = (s.GetLocation x).archetypeId
          · by_cases hcji : ci = (s.GetLocation x).chunkIndex
            · rw [← hja, ← hcji, hchunk_new, hchunk2]
              rw [← hja, ← hcji, ← hch] at h3 h4
              show (s.GetLocation x).indexInChunk < ch.header.count - 1
              have hne : (s.GetLocation x).indexInChunk ≠ lastIndex := by
                intro hcon
                rw [hcon] at h4
                rw [← hmoved] at h4
                exact hmx h4
              omega
            · rw [← hja, hchunk_same_arch _ hcji]
              rw [← hja] at h3
              exact h3
          · rw [hchunk_other _ hja]
            exact h3
        · by_cases hja : aid = (s.GetLocation x).archetypeId
          · by_cases hcji : ci = (s.GetLocation x).chunkIndex
            · rw [← hja, ← hcji, hchunk_new]
              rw [← hja, ← hcji, ← hch] at h3 h4
              have hne_last : (s.GetLocation x).indexInChunk ≠ lastIndex := by
                intro hcon
                rw [hcon] at h4
                rw [← hmoved] at h4
                exact hmx h4
              have hne_d : d ≠ (s.GetLocation x).indexInChunk := by
                intro hcon
                rw [← hcon] at h4
                rw [hide] at h4
                exact hex h4
              have hlt2 : (s.GetLocation x).indexInChunk < ch.header.count - 1 := by
                omega
              rw [hids2_other _ hlt2 hne_d]
              exact h4
            · rw [← hja, hchunk_same_arch _ hcji]
              rw [← hja] at h4
              exact h4
          · rw [hchunk_other _ hja]
            exact h4
  · intro y hy
    rw [htq] at hy
    rcases List.mem_append.mp hy with hy1 | hy1
    · rcases hInv.freeInv y hy1 with ⟨h1, h2⟩
      refine ⟨h1, ?_⟩
      rw [hloc_other y (hinvalid_ne y h2) (hinvalid_ne_mv y h2)]
      exact h2
    · have hye : y = e := List.mem_singleton.mp hy1
      subst hye
      refine ⟨he, ?_⟩
      rw [hloc_e, hdead]
  · rw [htq]
    refine LH.nodup_append_singleton _ _ hInv.freeNodup ?_
    intro hmem
    rcases hInv.freeInv e hmem with ⟨-, h2⟩
    rw [hv] at h2
    exact Bool.true_eq_false.mp h2
  · rw [htlive, htloc2, hInv.living]
    have hsame : (fun l => l.valid) ml1 =
        (fun l => l.valid) (s.entityLocations.getD moved invalidLocation) := by
      rw [hml1]
      show true = (s.GetLocation moved).valid
      rw [hmvloc]
    have hL1count : L1.countP (fun l => l.valid) =
        s.entityLocations.countP (fun l => l.valid) := by
      rw [hL1]
      exact LH.countP_set_same _ _ _ _ _ hsame
    have hvalid_L1e : (fun l => l.valid) (L1.getD e invalidLocation) = true := by
      rw [hL1_e]
      exact hv
    have hflip := LH.countP_set_flip_down (fun l => l.valid) L1 e dead
      invalidLocation (by rw [hL1len]; exact he) hvalid_L1e (by rw [hdead])
    omega

/-- DestroyEntity preserves the invariant. -/
theorem inv_destroy (s : EntityManager) (hInv : ManagerInv s) (e : Nat) :
    ManagerInv (s.DestroyEntity e) := by
  by_cases hm : MAX_ENTITIES ≤ e
  · unfold EntityManager.DestroyEntity
    rw [if_pos hm]
    exact hInv
  · by_cases hv : (s.GetLocation e).valid = false
    · unfold EntityManager.DestroyEntity
      rw [if_neg hm, if_pos hv]
      exact hInv
    · have he : e < MAX_ENTITIES := Nat.not_le.mp hm
      have hv2 : (s.GetLocation e).valid = true := by
        cases hb : (s.GetLocation e).valid
        · exact absurd hb hv
        · rfl
      by_cases hl : (s.GetLocation e).indexInChunk =
          (chunkAt s (s.GetLocation e).archetypeId (s.GetLocation e).chunkIndex).header.count - 1
      · rw [destroyEntity_eq_last s e hm hv hl]
        exact inv_destroy_last s hInv e he hv2 hl
      · rw [destroyEntity_eq_swap s e hm hv hl]
        exact inv_destroy_swap s hInv e he hv2 hl

theorem inv_applyOp (s : EntityManager) (hInv : ManagerInv s) (op : Op) :
    ManagerInv (applyOp s op) := by
  cases op with
  | register comps => exact inv_register s hInv comps
  | create aid => exact inv_create s hInv aid
  | destroy e => exact inv_destroy s hInv e

theorem inv_runOps (s : EntityManager) (hInv : ManagerInv s) (ops : List Op) :
    ManagerInv (runOps s ops) := by
  induction ops generalizing s with
  | nil => exact hInv
  | cons op rest ih => exact ih _ (inv_applyOp s hInv op)

theorem inv_reachable (ops : List Op) : ManagerInv (runOps initManager ops) :=
  inv_runOps initManager inv_init ops

/-- C3: after every operation sequence from a fresh manager, GetLivingCount
equals the number of entity identities whose location record has
valid = true. -/
theorem livingCount_eq_validCount (ops : List Op) :
    (runOps initManager ops).GetLivingCount =
      (runOps initManager ops).entityLocations.countP (fun l => l.valid) :=
  (inv_reachable ops).living

/-- C2 (amended): in every reachable state every chunk has entityIds length
equal to count; count is at most capacity whenever the owning archetype has
entitiesPerChunk at least 1 (a zero-capacity archetype from an oversized
schema instead keeps count at most 1, see C5); and every occupied slot
resolves through GetLocation back to exactly its (archetype, chunk, slot)
with valid = true. -/
theorem chunk_occupancy_invariant (ops : List Op) :
    ∀ aid, aid < (runOps initManager ops).archetypes.length →
    ∀ cid, cid < (getArch (runOps initManager ops) aid).chunks.length →
    ((chunkAt (runOps initManager ops) aid cid).entityIds.length =
      (chunkAt (runOps initManager ops) aid cid).header.count) ∧
    (1 ≤ (getArch (runOps initManager ops) aid).entitiesPerChunk →
      (chunkAt (runOps initManager ops) aid cid).header.count ≤
        (chunkAt (runOps initManager ops) aid cid).header.capacity) ∧
    ((chunkAt (runOps initManager ops) aid cid).header.count ≤
      max (chunkAt (runOps initManager ops) aid cid).header.capacity 1) ∧
    (∀ i, i < (chunkAt (runOps initManager ops) aid cid).header.count →
      (runOps initManager ops).GetLocation
          ((chunkAt (runOps initManager ops) aid cid).entityIds.getD i 0) =
        { archetypeId := aid, chunkIndex := cid, indexInChunk := i, valid := true }) := by
  intro aid ha cid hc
  have hInv := inv_reachable ops
  refine ⟨hInv.idsLen aid ha cid hc, ?_, hInv.countLe aid ha cid hc, ?_⟩
  · intro h1
    have hcap := hInv.capEq aid ha cid hc
    have hcnt := hInv.countLe aid ha cid hc
    rw [hcap] at hcnt ⊢
    rw [Nat.max_eq_left h1] at hcnt
    exact hcnt
  · intro i hi
    exact (hInv.resolve aid ha cid hc i hi).2

theorem headD_drop_range (j : Nat) (h : j < MAX_ENTITIES) :
    ((List.range MAX_ENTITIES).drop j).headD 0 = j := by
  rw [List.headD_eq_head?_getD, List.head?_drop]
  simp [List.getElem?_range, h]

theorem headD_append_left {α : Type} (l l' : List α) (d : α) (h : ¬ l = []) :
    (l ++ l').headD d = l.headD d := by
  cases l with
  | nil => exact absurd rfl h
  | cons x xs => rfl

theorem range_max_ne_nil : ¬ List.range MAX_ENTITIES = [] := by
  rw [List.range_eq_nil]
  decide

theorem drop_range_max_ne_nil (j : Nat) (h : j < MAX_ENTITIES) :
    ¬ (List.range MAX_ENTITIES).drop j = [] := by
  intro hnil
  have := congrArg List.length hnil
  rw [List.length_drop, List.length_range] at this
  simp at this
  omega

/-- The entity id CreateEntity hands out on success is the queue front. -/
theorem createEntity_snd (s : EntityManager) (aid : Nat)
    (hq : ¬ s.availableEntities = []) (ha : aid < s.archetypes.length) :
    (s.CreateEntity aid).2 = s.availableEntities.headD 0 := by
  cases hf : findFreeChunk (getArch s aid).chunks with
  | some ci => rw [createEntity_eq_found s aid ci hq ha hf]
  | none => rw [createEntity_eq_alloc s aid hq ha hf]

theorem registerArchetype_avail (s : EntityManager) (comps : List ComponentInfo) :
    (s.RegisterArchetype comps).1.availableEntities = s.availableEntities := by
  unfold EntityManager.RegisterArchetype
  cases hl : s.signatureToArchetype.lookup (EntityManager.ComputeSignature comps) with
  | some i => simp [hl]
  | none => simp [hl, EntityManager.AllocateChunk]

/-- C2 counterexample: the invariant as stated (count ≤ capacity in every
reachable state) fails.  Registering a schema whose stride exceeds the
usable chunk bytes and creating one entity reaches a state whose chunk
(archetype 0, chunk 1) holds 1 entity in a zero-capacity chunk. -/
theorem chunk_occupancy_counterexample :
    (chunkAt (runOps initManager
        [Op.register [⟨0, CHUNK_DATA_SIZE + 1, 1⟩], Op.create 0]) 0 1).header.capacity <
      (chunkAt (runOps initManager
        [Op.register [⟨0, CHUNK_DATA_SIZE + 1, 1⟩], Op.create 0]) 0 1).header.count ∧
    0 < (runOps initManager
        [Op.register [⟨0, CHUNK_DATA_SIZE + 1, 1⟩], Op.create 0]).archetypes.length ∧
    1 < (getArch (runOps initManager
        [Op.register [⟨0, CHUNK_DATA_SIZE + 1, 1⟩], Op.create 0]) 0).chunks.length := by
  have hrun : runOps initManager [Op.register [⟨0, CHUNK_DATA_SIZE + 1, 1⟩], Op.create 0] =
      ((initManager.RegisterArchetype [⟨0, CHUNK_DATA_SIZE + 1, 1⟩]).1.CreateEntity 0).1 := rfl
  have hq : ¬ (initManager.RegisterArchetype
      [⟨0, CHUNK_DATA_SIZE + 1, 1⟩]).1.availableEntities = [] := by
    have hav : (initManager.RegisterArchetype
        [⟨0, CHUNK_DATA_SIZE + 1, 1⟩]).1.availableEntities = List.range MAX_ENTITIES := by
      rw [registerArchetype_avail]
      exact initManager_avail
    rw [hav]
    exact range_max_ne_nil
  have ha : 0 < (initManager.RegisterArchetype
      [⟨0, CHUNK_DATA_SIZE + 1, 1⟩]).1.archetypes.length := by decide
  have hf : findFreeChunk (getArch (initManager.RegisterArchetype
      [⟨0, CHUNK_DATA_SIZE + 1, 1⟩]).1 0).chunks = none := by decide
  rw [hrun, createEntity_eq_alloc _ 0 hq ha hf]
  refine ⟨?_, ?_, ?_⟩ <;> decide

/-- Witness for C2 (amended) on the state after registering one 4-byte
component schema, at archetype 0, chunk 0. -/
theorem chunk_occupancy_invariant_witness :
    0 < (runOps initManager [Op.register [⟨0, 4, 4⟩]]).archetypes.length ∧
    0 < (getArch (runOps initManager [Op.register [⟨0, 4, 4⟩]]) 0).chunks.length ∧
    (((chunkAt (runOps initManager [Op.register [⟨0, 4, 4⟩]]) 0 0).entityIds.length =
      (chunkAt (runOps initManager [Op.register [⟨0, 4, 4⟩]]) 0 0).header.count) ∧
    (1 ≤ (getArch (runOps initManager [Op.register [⟨0, 4, 4⟩]]) 0).entitiesPerChunk →
      (chunkAt (runOps initManager [Op.register [⟨0, 4, 4⟩]]) 0 0).header.count ≤
        (chunkAt (runOps initManager [Op.register [⟨0, 4, 4⟩]]) 0 0).header.capacity) ∧
    ((chunkAt (runOps initManager [Op.register [⟨0, 4, 4⟩]]) 0 0).header.count ≤
      max (chunkAt (runOps initManager [Op.register [⟨0, 4, 4⟩]]) 0 0).header.capacity 1) ∧
    (∀ i, i < (chunkAt (runOps initManager [Op.register [⟨0, 4, 4⟩]]) 0 0).header.count →
      (runOps initManager [Op.register [⟨0, 4, 4⟩]]).GetLocation
          ((chunkAt (runOps initManager [Op.register [⟨0, 4, 4⟩]]) 0 0).entityIds.getD i 0) =
        { archetypeId := 0, chunkIndex := 0, indexInChunk := i, valid := true })) :=
  ⟨by decide, by decide,
   chunk_occupancy_invariant [Op.register [⟨0, 4, 4⟩]] 0 (by decide) 0 (by decide)⟩

theorem headD_range_max : (List.range MAX_ENTITIES).headD 0 = 0 := by
  have h := headD_drop_range 0 (by decide)
  rwa [List.drop_zero] at h

theorem destroyEntity_archetypes_length (s : EntityManager) (e : Nat) :
    (s.DestroyEntity e).archetypes.length = s.archetypes.length := by
  by_cases hm : MAX_ENTITIES ≤ e
  · unfold EntityManager.DestroyEntity
    rw [if_pos hm]
  · by_cases hv : (s.GetLocation e).valid = false
    · unfold EntityManager.DestroyEntity
      rw [if_neg hm, if_pos hv]
    · by_cases hl : (s.GetLocation e).indexInChunk =
          (chunkAt s (s.GetLocation e).archetypeId (s.GetLocation e).chunkIndex).header.count - 1
      · rw [destroyEntity_eq_last s e hm hv hl]
        show (s.archetypes.set _ _).length = s.archetypes.length
        exact List.length_set _ _ _
      · rw [destroyEntity_eq_swap s e hm hv hl]
        show (s.archetypes.set _ _).length = s.archetypes.length
        exact List.length_set _ _ _

theorem destroyEntity_avail_push (s : EntityManager) (e : Nat)
    (he : e < MAX_ENTITIES) (hv : (s.GetLocation e).valid = true) :
    (s.DestroyEntity e).availableEntities = s.availableEntities ++ [e] := by
  have hm : ¬ MAX_ENTITIES ≤ e := Nat.not_le.mpr he
  have hv2 : ¬ (s.GetLocation e).valid = false := by
    rw [hv]
    decide
  by_cases hl : (s.GetLocation e).indexInChunk =
      (chunkAt s (s.GetLocation e).archetypeId (s.GetLocation e).chunkIndex).header.count - 1
  · rw [destroyEntity_eq_last s e hm hv2 hl]
    rfl
  · rw [destroyEntity_eq_swap s e hm hv2 hl]
    rfl

theorem insertEntityState_avail (u : EntityManager) (aid ci id : Nat) (rest : List Nat) :
    (insertEntityState u aid ci id rest).availableEntities = rest := rfl

theorem destroyLastState_avail (s : EntityManager) (e : Nat) :
    (destroyLastState s e).availableEntities = s.availableEntities ++ [e] := rfl

theorem destroySwapState_avail (s : EntityManager) (e : Nat) :
    (destroySwapState s e).availableEntities = s.availableEntities ++ [e] := rfl

theorem tail_append_left {α : Type} (l l' : List α) (h : ¬ l = []) :
    (l ++ l').tail = l.tail ++ l' := by
  cases l with
  | nil => exact absurd rfl h
  | cons a t => rfl

theorem runOpsTrace_nil (s : EntityManager) : runOpsTrace s [] = (s, []) := rfl

theorem runOpsTrace_reg (s : EntityManager) (c : List ComponentInfo) (rest : List Op) :
    runOpsTrace s (Op.register c :: rest) =
      runOpsTrace (s.RegisterArchetype c).1 rest := rfl

theorem runOpsTrace_destroy (s : EntityManager) (e : Nat) (rest : List Op) :
    runOpsTrace s (Op.destroy e :: rest) = runOpsTrace (s.DestroyEntity e) rest := rfl

theorem runOpsTrace_create (s : EntityManager) (aid : Nat) (rest : List Op) :
    runOpsTrace s (Op.create aid :: rest) =
      ((runOpsTrace (s.CreateEntity aid).1 rest).1,
        (s.CreateEntity aid).2 :: (runOpsTrace (s.CreateEntity aid).1 rest).2) := rfl

/-- The spec recycling scenario, computed symbolically: the three creates on
a fresh manager return 0, 1, 2 (the queue front), and after destroying all
three the next three creates return 3, 4, 5, because the recycled ids sit at
the BACK of the 100000-deep FIFO queue. -/
theorem recycleScenario_trace :
    (runOpsTrace initManager recycleScenarioOps).2 = [0, 1, 2, 3, 4, 5] := by
  have hav1 : (initManager.RegisterArchetype [⟨0, 4, 4⟩]).1.availableEntities =
      List.range MAX_ENTITIES := by
    rw [registerArchetype_avail]
    exact initManager_avail
  have hq1 : ¬ (initManager.RegisterArchetype [⟨0, 4, 4⟩]).1.availableEntities = [] := by
    rw [hav1]
    exact range_max_ne_nil
  have ha1 : 0 < (initManager.RegisterArchetype [⟨0, 4, 4⟩]).1.archetypes.length := by decide
  have hf1 : findFreeChunk (getArch (initManager.RegisterArchetype [⟨0, 4, 4⟩]).1 0).chunks =
      some 0 := by decide
  have hpair1 := createEntity_eq_found _ 0 0 hq1 ha1 hf1
  rw [hav1, headD_range_max, ← List.drop_one] at hpair1
  have hst1 : ((initManager.RegisterArchetype [⟨0, 4, 4⟩]).1.CreateEntity 0).1 =
      insertEntityState (initManager.RegisterArchetype [⟨0, 4, 4⟩]).1 0 0 0
        (List.drop 1 (List.range MAX_ENTITIES)) := by
    rw [hpair1]
  have hid1 : ((initManager.RegisterArchetype [⟨0, 4, 4⟩]).1.CreateEntity 0).2 = 0 := by
    rw [hpair1]
  set s2 := insertEntityState (initManager.RegisterArchetype [⟨0, 4, 4⟩]).1 0 0 0
    (List.drop 1 (List.range MAX_ENTITIES)) with hs2
  have hav2 : s2.availableEntities = List.drop 1 (List.range MAX_ENTITIES) := by
    rw [hs2, insertEntityState_avail]
  have hq2 : ¬ s2.availableEntities = [] := by
    rw [hav2]
    exact drop_range_max_ne_nil 1 (by decide)
  have ha2 : 0 < s2.archetypes.length := by
    rw [hs2]
    decide
  have hf2 : findFreeChunk (getArch s2 0).chunks = some 0 := by
    rw [hs2]
    decide
  have hpair2 := createEntity_eq_found s2 0 0 hq2 ha2 hf2
  rw [hav2, headD_drop_range 1 (by decide), List.tail_drop] at hpair2
  have hst2 : (s2.CreateEntity 0).1 =
      insertEntityState s2 0 0 1 (List.drop 2 (List.range MAX_ENTITIES)) := by
    rw [hpair2]
  have hid2 : (s2.CreateEntity 0).2 = 1 := by
    rw [hpair2]
  set s3 := insertEntityState s2 0 0 1 (List.drop 2 (List.range MAX_ENTITIES)) with hs3
  have hav3 : s3.availableEntities = List.drop 2 (List.range MAX_ENTITIES) := by
    rw [hs3, insertEntityState_avail]
  have hq3 : ¬ s3.availableEntities = [] := by
    rw [hav3]
    exact drop_range_max_ne_nil 2 (by decide)
  have ha3 : 0 < s3.archetypes.length := by
    rw [hs3, hs2]
    decide
  have hf3 : findFreeChunk (getArch s3 0).chunks = some 0 := by
    rw [hs3, hs2]
    decide
  have hpair3 := createEntity_eq_found s3 0 0 hq3 ha3 hf3
  rw [hav3, headD_drop_range 2 (by decide), List.tail_drop] at hpair3
  have hst3 : (s3.CreateEntity 0).1 =
      insertEntityState s3 0 0 2 (List.drop 3 (List.range MAX_ENTITIES)) := by
    rw [hpair3]
  have hid3 : (s3.CreateEntity 0).2 = 2 := by
    rw [hpair3]
  set s4 := insertEntityState s3 0 0 2 (List.drop 3 (List.range MAX_ENTITIES)) with hs4
  have hm0 : ¬ MAX_ENTITIES ≤ 0 := by decide
  have hvd0 : ¬ (s4.GetLocation 0).valid = false := by
    rw [hs4, hs3, hs2]
    decide
  have hld0 : ¬ (s4.GetLocation 0).indexInChunk =
      (chunkAt s4 (s4.GetLocation 0).archetypeId
        (s4.GetLocation 0).chunkIndex).header.count - 1 := by
    rw [hs4, hs3, hs2]
    decide
  have hd1 := destroyEntity_eq_swap s4 0 hm0 hvd0 hld0
  set s5 := destroySwapState s4 0 with hs5
  have hav5 : s5.availableEntities = List.drop 3 (List.range MAX_ENTITIES) ++ [0] := by
    rw [hs5, destroySwapState_avail, hs4, insertEntityState_avail]
  have hm1 : ¬ MAX_ENTITIES ≤ 1 := by decide
  have hvd1 : ¬ (s5.GetLocation 1).valid = false := by
    rw [hs5, hs4, hs3, hs2]
    decide
  have hld1 : (s5.GetLocation 1).indexInChunk =
      (chunkAt s5 (s5.GetLocation 1).archetypeId
        (s5.GetLocation 1).chunkIndex).header.count - 1 := by
    rw [hs5, hs4, hs3, hs2]
    decide
  have hd2 := destroyEntity_eq_last s5 1 hm1 hvd1 hld1
  set s6 := destroyLastState s5 1 with hs6
  have hav6 : s6.availableEntities =
      (List.drop 3 (List.range MAX_ENTITIES) ++ [0]) ++ [1] := by
    rw [hs6, destroyLastState_avail, hav5]
  have hm2 : ¬ MAX_ENTITIES ≤ 2 := by decide
  have hvd2 : ¬ (s6.GetLocation 2).valid = false := by
    rw [hs6, hs5, hs4, hs3, hs2]
    decide
  have hld2 : (s6.GetLocation 2).indexInChunk =
      (chunkAt s6 (s6.GetLocation 2).archetypeId
        (s6.GetLocation 2).chunkIndex).header.count - 1 := by
    rw [hs6, hs5, hs4, hs3, hs2]
    decide
  have hd3 := destroyEntity_eq_last s6 2 hm2 hvd2 hld2
  set s7 := destroyLastState s6 2 with hs7
  have hav7 : s7.availableEntities =
      ((List.drop 3 (List.range MAX_ENTITIES) ++ [0]) ++ [1]) ++ [2] := by
    rw [hs7, destroyLastState_avail, hav6]
  have hne3 : ¬ List.drop 3 (List.range MAX_ENTITIES) = [] :=
    drop_range_max_ne_nil 3 (by decide)
  have hne30 : ¬ (List.drop 3 (List.range MAX_ENTITIES) ++ [0]) = [] := by simp
  have hne301 : ¬ ((List.drop 3 (List.range MAX_ENTITIES) ++ [0]) ++ [1]) = [] := by simp
  have hq7 : ¬ s7.availableEntities = [] := by
    rw [hav7]
    simp
  have ha7 : 0 < s7.archetypes.length := by
    rw [hs7, hs6, hs5, hs4, hs3, hs2]
    decide
  have hf7 : findFreeChunk (getArch s7 0).chunks = some 0 := by
    rw [hs7, hs6, hs5, hs4, hs3, hs2]
    decide
  have hh7 : s7.availableEntities.headD 0 = 3 := by
    rw [hav7, headD_append_left _ _ _ hne301, headD_append_left _ _ _ hne30,
      headD_append_left _ _ _ hne3]
    exact headD_drop_range 3 (by decide)
  have ht7 : s7.availableEntities.tail =
      ((List.drop 4 (List.range MAX_ENTITIES) ++ [0]) ++ [1]) ++ [2] := by
    rw [hav7, tail_append_left _ _ hne301, tail_append_left _ _ hne30,
      tail_append_left _ _ hne3, List.tail_drop]
  have hpair4 := createEntity_eq_found s7 0 0 hq7 ha7 hf7
  rw [hh7, ht7] at hpair4
  have hst4 : (s7.CreateEntity 0).1 = insertEntityState s7 0 0 3
      (((List.drop 4 (List.range MAX_ENTITIES) ++ [0]) ++ [1]) ++ [2]) := by
    rw [hpair4]
  have hid4 : (s7.CreateEntity 0).2 = 3 := by
    rw [hpair4]
  set s8 := insertEntityState s7 0 0 3
    (((List.drop 4 (List.range MAX_ENTITIES) ++ [0]) ++ [1]) ++ [2]) with hs8
  have hav8 : s8.availableEntities =
      ((List.drop 4 (List.range MAX_ENTITIES) ++ [0]) ++ [1]) ++ [2] := by
    rw [hs8, insertEntityState_avail]
  have hne4 : ¬ List.drop 4 (List.range MAX_ENTITIES) = [] :=
    drop_range_max_ne_nil 4 (by decide)
  have hne40 : ¬ (List.drop 4 (List.range MAX_ENTITIES) ++ [0]) = [] := by simp
  have hne401 : ¬ ((List.drop 4 (List.range MAX_ENTITIES) ++ [0]) ++ [1]) = [] := by simp
  have hq8 : ¬ s8.availableEntities = [] := by
    rw [hav8]
    simp
  have ha8 : 0 < s8.archetypes.length := by
    rw [hs8, hs7, hs6, hs5, hs4, hs3, hs2]
    decide
  have hf8 : findFreeChunk (getArch s8 0).chunks = some 0 := by
    rw [hs8, hs7, hs6, hs5, hs4, hs3, hs2]
    decide
  have hh8 : s8.availableEntities.headD 0 = 4 := by
    rw [hav8, headD_append_left _ _ _ hne401, headD_append_left _ _ _ hne40,
      headD_append_left _ _ _ hne4]
    exact headD_drop_range 4 (by decide)
  have ht8 : s8.availableEntities.tail =
      ((List.drop 5 (List.range MAX_ENTITIES) ++ [0]) ++ [1]) ++ [2] := by
    rw [hav8, tail_append_left _ _ hne401, tail_append_left _ _ hne40,
      tail_append_left _ _ hne4, List.tail_drop]
  have hpair5 := createEntity_eq_found s8 0 0 hq8 ha8 hf8
  rw [hh8, ht8] at hpair5
  have hst5 : (s8.CreateEntity 0).1 = insertEntityState s8 0 0 4
      (((List.drop 5 (List.range MAX_ENTITIES) ++ [0]) ++ [1]) ++ [2]) := by
    rw [hpair5]
  have hid5 : (s8.CreateEntity 0).2 = 4 := by
    rw [hpair5]
  set s9 := insertEntityState s8 0 0 4
    (((List.drop 5 (List.range MAX_ENTITIES) ++ [0]) ++ [1]) ++ [2]) with hs9
  have hav9 : s9.availableEntities =
      ((List.drop 5 (List.range MAX_ENTITIES) ++ [0]) ++ [1]) ++ [2] := by
    rw [hs9, insertEntityState_avail]
  have hne5 : ¬ List.drop 5 (List.range MAX_ENTITIES) = [] :=
    drop_range_max_ne_nil 5 (by decide)
  have hne50 : ¬ (List.drop 5 (List.range MAX_ENTITIES) ++ [0]) = [] := by simp
  have hne501 : ¬ ((List.drop 5 (List.range MAX_ENTITIES) ++ [0]) ++ [1]) = [] := by simp
  have hq9 : ¬ s9.availableEntities = [] := by
    rw [hav9]
    simp
  have ha9 : 0 < s9.archetypes.length := by
    rw [hs9, hs8, hs7, hs6, hs5, hs4, hs3, hs2]
    decide
  have hf9 : findFreeChunk (getArch s9 0).chunks = some 0 := by
    rw [hs9, hs8, hs7, hs6, hs5, hs4, hs3, hs2]
    decide
  have hh9 : s9.availableEntities.headD 0 = 5 := by
    rw [hav9, headD_append_left _ _ _ hne501, headD_append_left _ _ _ hne50,
      headD_append_left _ _ _ hne5]
    exact headD_drop_range 5 (by decide)
  have hpair6 := createEntity_eq_found s9 0 0 hq9 ha9 hf9
  rw [hh9] at hpair6
  have hid6 : (s9.CreateEntity 0).2 = 5 := by
    rw [hpair6]
  simp only [recycleScenarioOps]
  rw [runOpsTrace_reg, runOpsTrace_create, hst1, hid1]
  rw [runOpsTrace_create, hst2, hid2]
  rw [runOpsTrace_create, hst3, hid3]
  rw [runOpsTrace_destroy, hd1]
  rw [runOpsTrace_destroy, hd2]
  rw [runOpsTrace_destroy, hd3]
  rw [runOpsTrace_create, hst4, hid4]
  rw [runOpsTrace_create, hst5, hid5]
  rw [runOpsTrace_create, hid6]
  rfl

/-- C4 (amended): identity recycling is FIFO through a queue.  The
constructor fills the free queue with ids 0 .. MAX_ENTITIES-1 in order,
CreateEntity pops the recycled id from the FRONT of the free queue, and
DestroyEntity pushes the destroyed id onto the BACK; when the free queue is
empty at the destroy, a destroy followed by a create with no intervening
creates does return the destroyed id.  On a fresh manager the spec scenario
(create 3 entities, destroy all 3, create 3 more) returns the fresh ids
3, 4, 5 — not the recycled 0, 1, 2, which sit behind 99,997 never-used
ids. -/
theorem id_recycling_fifo (s : EntityManager) (E aid : Nat)
    (hE : E < MAX_ENTITIES) (hv : (s.GetLocation E).valid = true) :
    (s.DestroyEntity E).availableEntities = s.availableEntities ++ [E] ∧
    (¬ s.availableEntities = [] → aid < s.archetypes.length →
      (s.CreateEntity aid).2 = s.availableEntities.headD 0) ∧
    (s.availableEntities = [] → aid < s.archetypes.length →
      ((s.DestroyEntity E).CreateEntity aid).2 = E) ∧
    initManager.availableEntities = List.range MAX_ENTITIES ∧
    (runOpsTrace initManager recycleScenarioOps).2 = [0, 1, 2, 3, 4, 5] := by
  have hpush := destroyEntity_avail_push s E hE hv
  refine ⟨hpush, ?_, ?_, initManager_avail, recycleScenario_trace⟩
  · intro hq ha
    exact createEntity_snd s aid hq ha
  · intro hq ha
    have hq2 : (s.DestroyEntity E).availableEntities = [E] := by
      rw [hpush, hq]
      rfl
    have ha2 : aid < (s.DestroyEntity E).archetypes.length := by
      rw [destroyEntity_archetypes_length]
      exact ha
    rw [createEntity_snd _ aid (by rw [hq2]; simp) ha2, hq2]
    rfl

/-- Witness for C4 (amended): a one-entity manager whose free queue is empty
(destroy then create hands 0 back), plus the concrete spec scenario trace
0,1,2 then 3,4,5 on the fresh manager. -/
theorem id_recycling_fifo_witness :
    (0 : Nat) < MAX_ENTITIES ∧
    (fifoWitnessState.GetLocation 0).valid = true ∧
    fifoWitnessState.availableEntities = [] ∧
    0 < fifoWitnessState.archetypes.length ∧
    (fifoWitnessState.DestroyEntity 0).availableEntities =
      fifoWitnessState.availableEntities ++ [0] ∧
    ((fifoWitnessState.DestroyEntity 0).CreateEntity 0).2 = 0 ∧
    (runOpsTrace initManager recycleScenarioOps).2 = [0, 1, 2, 3, 4, 5] := by
  have h := id_recycling_fifo fifoWitnessState 0 0 (by decide) rfl
  exact ⟨by decide, rfl, rfl, by decide, h.1, h.2.2.1 rfl (by decide), h.2.2.2.2⟩

/-- C4 counterexample: on a fresh manager (so 99,999 other identities are
still free) the claim fails.  Register a schema, create one entity (id 0),
destroy it with no intervening creates: the next create returns id 1, not
the recycled id 0, because the queue is FIFO and id 0 went to the back. -/
theorem id_recycling_counterexample :
    ((initManager.RegisterArchetype [⟨0, 4, 4⟩]).1.CreateEntity 0).2 = 0 ∧
    ((((initManager.RegisterArchetype [⟨0, 4, 4⟩]).1.CreateEntity 0).1.DestroyEntity
        ((initManager.RegisterArchetype [⟨0, 4, 4⟩]).1.CreateEntity 0).2).CreateEntity 0).2
      = 1 := by
  have hav1 : (initManager.RegisterArchetype [⟨0, 4, 4⟩]).1.availableEntities =
      List.range MAX_ENTITIES := by
    rw [registerArchetype_avail]
    exact initManager_avail
  have hq1 : ¬ (initManager.RegisterArchetype [⟨0, 4, 4⟩]).1.availableEntities = [] := by
    rw [hav1]
    exact range_max_ne_nil
  have ha1 : 0 < (initManager.RegisterArchetype [⟨0, 4, 4⟩]).1.archetypes.length := by decide
  have hf1 : findFreeChunk (getArch (initManager.RegisterArchetype [⟨0, 4, 4⟩]).1 0).chunks =
      some 0 := by decide
  have hpair := createEntity_eq_found (initManager.RegisterArchetype [⟨0, 4, 4⟩]).1 0 0 hq1 ha1 hf1
  rw [hav1, headD_range_max] at hpair
  have hid : ((initManager.RegisterArchetype [⟨0, 4, 4⟩]).1.CreateEntity 0).2 = 0 := by
    rw [hpair]
  have hs2 : ((initManager.RegisterArchetype [⟨0, 4, 4⟩]).1.CreateEntity 0).1 =
      insertEntityState (initManager.RegisterArchetype [⟨0, 4, 4⟩]).1 0 0 0
        (List.range MAX_ENTITIES).tail := by
    rw [hpair]
  refine ⟨hid, ?_⟩
  rw [hid, hs2]
  set s2 := insertEntityState (initManager.RegisterArchetype [⟨0, 4, 4⟩]).1 0 0 0
    (List.range MAX_ENTITIES).tail with hs2def
  have hm0 : ¬ MAX_ENTITIES ≤ 0 := by decide
  have hval : s2.GetLocation 0 =
      ({ archetypeId := 0, chunkIndex := 0, indexInChunk := 0, valid := true }) := rfl
  have hv0 : ¬ (s2.GetLocation 0).valid = false := by
    rw [hval]
    decide
  have hl0 : (s2.GetLocation 0).indexInChunk =
      (chunkAt s2 (s2.GetLocation 0).archetypeId (s2.GetLocation 0).chunkIndex).header.count
        - 1 := by
    rw [hval]
    decide
  rw [destroyEntity_eq_last s2 0 hm0 hv0 hl0]
  have hs3q : (destroyLastState s2 0).availableEntities =
      (List.range MAX_ENTITIES).tail ++ [0] := by
    rw [destroyLastState_avail, hs2def, insertEntityState_avail]
  have hq3 : ¬ (destroyLastState s2 0).availableEntities = [] := by
    rw [hs3q]
    simp
  have ha3 : 0 < (destroyLastState s2 0).archetypes.length := by decide
  rw [createEntity_snd _ 0 hq3 ha3, hs3q]
  have htail_ne : ¬ (List.range MAX_ENTITIES).tail = [] := by
    rw [← List.drop_one]
    exact drop_range_max_ne_nil 1 (by decide)
  rw [headD_append_left _ _ _ htail_ne, ← List.drop_one]
  exact headD_drop_range 1 (by decide)

theorem sumSizes_nil : sumSizes [] = 0 := rfl

theorem sumSizes_cons (c : ComponentInfo) (L : List ComponentInfo) :
    sumSizes (c :: L) = c.size + sumSizes L := by
  unfold sumSizes
  simp

theorem sumSizes_append (L1 L2 : List ComponentInfo) :
    sumSizes (L1 ++ L2) = sumSizes L1 + sumSizes L2 := by
  unfold sumSizes
  simp

theorem compOffsetAux_split (epc idx : Nat) (c : ComponentInfo) :
    ∀ (L1 L2 : List ComponentInfo) (off : Nat), c.id ∉ L1.map (fun x => x.id) →
    compOffsetAux epc c.id idx (L1 ++ c :: L2) off =
      some (off + sumSizes L1 * epc + c.size * idx) := by
  intro L1
  induction L1 with
  | nil =>
    intro L2 off _
    show compOffsetAux epc c.id idx (c :: L2) off = _
    simp only [compOffsetAux]
    simp [sumSizes_nil]
  | cons c1 L1' ih =>
    intro L2 off hnotin
    have hne : ¬ c1.id = c.id := by
      intro hcon
      exact hnotin (by simp [hcon])
    have hnotin2 : c.id ∉ L1'.map (fun x => x.id) := by
      intro hcon
      exact hnotin (by simp [hcon])
    show (if c1.id = c.id then some (off + c1.size * idx)
      else compOffsetAux epc c.id idx (L1' ++ c :: L2) (off + c1.size * epc)) = _
    rw [if_neg hne, ih L2 (off + c1.size * epc) hnotin2, sumSizes_cons]
    ring_nf

theorem gco_split (a : Archetype) (c : ComponentInfo) (L1 L2 : List ComponentInfo)
    (hsplit : a.components = L1 ++ c :: L2) (hnotin : c.id ∉ L1.map (fun x => x.id))
    (idx : Nat) :
    a.GetComponentOffset c.id idx =
      some (sumSizes L1 * a.entitiesPerChunk + c.size * idx) := by
  unfold Archetype.GetComponentOffset
  rw [hsplit, compOffsetAux_split a.entitiesPerChunk idx c L1 L2 0 hnotin]
  ring_nf

theorem copyStep_frame (a : Archetype) (src dst : Nat) (d : Nat → Nat)
    (c : ComponentInfo) (i : Nat)
    (h : ∀ so do_, a.GetComponentOffset c.id src = some so →
      a.GetComponentOffset c.id dst = some do_ → ¬ (do_ ≤ i ∧ i < do_ + c.size)) :
    copyStep a src dst d c i = d i := by
  unfold copyStep
  cases hso : a.GetComponentOffset c.id src with
  | none => rfl
  | some so =>
    cases hdo : a.GetComponentOffset c.id dst with
    | none => rfl
    | some do_ =>
      simp only
      rw [if_neg (h so do_ hso hdo)]

theorem copyStep_hit (a : Archetype) (src dst : Nat) (d : Nat → Nat) (c : ComponentInfo)
    (so do_ : Nat) (hso : a.GetComponentOffset c.id src = some so)
    (hdo : a.GetComponentOffset c.id dst = some do_) (i : Nat)
    (hin : do_ ≤ i ∧ i < do_ + c.size) :
    copyStep a src dst d c i = d (i - do_ + so) := by
  unfold copyStep
  cases hso2 : a.GetComponentOffset c.id src with
  | none =>
    rw [hso2] at hso
    simp at hso
  | some so2 =>
    cases hdo2 : a.GetComponentOffset c.id dst with
    | none =>
      rw [hdo2] at hdo
      simp at hdo
    | some do2 =>
      rw [hso2] at hso
      rw [hdo2] at hdo
      injection hso with h1
      injection hdo with h2
      subst h1
      subst h2
      simp only
      rw [if_pos hin]

theorem copyFold_frame (a : Archetype) (src dst : Nat) (i : Nat) :
    ∀ (M : List ComponentInfo) (d : Nat → Nat),
    (∀ c ∈ M, ∀ so do_, a.GetComponentOffset c.id src = some so →
      a.GetComponentOffset c.id dst = some do_ → ¬ (do_ ≤ i ∧ i < do_ + c.size)) →
    M.foldl (copyStep a src dst) d i = d i := by
  intro M
  induction M with
  | nil =>
    intro d _
    rfl
  | cons c M' ih =>
    intro d h
    show M'.foldl (copyStep a src dst) (copyStep a src dst d c) i = _
    rw [ih (copyStep a src dst d c) (fun x hx => h x (List.mem_cons_of_mem c hx))]
    exact copyStep_frame a src dst d c i (h c (List.mem_cons_self c M'))

theorem nodup_ids_split (L1 L2 : List ComponentInfo) (t : ComponentInfo)
    (hnd : ((L1 ++ t :: L2).map (fun c => c.id)).Nodup) :
    t.id ∉ L1.map (fun c => c.id) ∧
    (L1.map (fun c => c.id)).Nodup ∧
    ((t :: L2).map (fun c => c.id)).Nodup := by
  rw [List.map_append] at hnd
  rw [List.nodup_append] at hnd
  rcases hnd with ⟨h1, h2, h3⟩
  refine ⟨?_, h1, h2⟩
  intro hmem
  exact h3 hmem (by simp)

/-- The heart of C1: after the DestroyEntity copy loop, the bytes of
component t at slot dst equal the pre-copy bytes of t at slot src, for any
schema with distinct component ids and slots dst < src < entitiesPerChunk. -/
theorem copyComponents_reads (a : Archetype)
    (hnd : (a.components.map (fun c => c.id)).Nodup)
    (src dst : Nat) (hds : dst < src) (hse : src < a.entitiesPerChunk)
    (t : ComponentInfo) (L1 L2 : List ComponentInfo)
    (hsplit : a.components = L1 ++ t :: L2)
    (d : Nat → Nat) (j : Nat) (hj : j < t.size) :
    copyComponents a src dst d
        (sumSizes L1 * a.entitiesPerChunk + t.size * dst + j) =
      d (sumSizes L1 * a.entitiesPerChunk + t.size * src + j) := by
  have hepc1 : dst + 1 ≤ a.entitiesPerChunk := by omega
  rw [hsplit] at hnd
  rcases nodup_ids_split L1 L2 t hnd with ⟨hnotin1, hndL1, hndtL2⟩
  have hgco_t : ∀ idx, a.GetComponentOffset t.id idx =
      some (sumSizes L1 * a.entitiesPerChunk + t.size * idx) :=
    fun idx => gco_split a t L1 L2 hsplit hnotin1 idx
  have hgco_L1 : ∀ c1 ∈ L1, ∃ b1, (∀ idx, a.GetComponentOffset c1.id idx =
      some (b1 + c1.size * idx)) ∧
      b1 + c1.size * a.entitiesPerChunk ≤ sumSizes L1 * a.entitiesPerChunk := by
    intro c1 hc1
    rcases List.append_of_mem hc1 with ⟨La, Lb, hL1⟩
    have hsplit2 : a.components = La ++ c1 :: (Lb ++ t :: L2) := by
      rw [hsplit, hL1]
      simp
    have hnotinLa : c1.id ∉ La.map (fun c => c.id) := by
      rw [hL1] at hndL1
      exact (nodup_ids_split La Lb c1 (by simpa using hndL1)).1
    refine ⟨sumSizes La * a.entitiesPerChunk,
      fun idx => gco_split a c1 La (Lb ++ t :: L2) hsplit2 hnotinLa idx, ?_⟩
    have hsum : sumSizes La + c1.size ≤ sumSizes L1 := by
      rw [hL1, sumSizes_append, sumSizes_cons]
      omega
    have := Nat.mul_le_mul_right a.entitiesPerChunk hsum
    rw [Nat.add_mul] at this
    exact this
  have hgco_L2 : ∀ c2 ∈ L2, ∃ b2, (∀ idx, a.GetComponentOffset c2.id idx =
      some (b2 + c2.size * idx)) ∧
      sumSizes L1 * a.entitiesPerChunk + t.size * a.entitiesPerChunk ≤ b2 := by
    intro c2 hc2
    rcases List.append_of_mem hc2 with ⟨La, Lb, hL2⟩
    have hsplit2 : a.components = (L1 ++ t :: La) ++ c2 :: Lb := by
      rw [hsplit, hL2]
      simp
    have hnotinLa : c2.id ∉ (L1 ++ t :: La).map (fun c => c.id) := by
      have hnd2 : ((L1 ++ t :: L2).map (fun c => c.id)).Nodup := hnd
      rw [hL2] at hnd2
      have hre : L1 ++ t :: (La ++ c2 :: Lb) = (L1 ++ t :: La) ++ c2 :: Lb := by simp
      rw [hre] at hnd2
      exact (nodup_ids_split (L1 ++ t :: La) Lb c2 hnd2).1
    refine ⟨sumSizes (L1 ++ t :: La) * a.entitiesPerChunk,
      fun idx => gco_split a c2 (L1 ++ t :: La) Lb hsplit2 hnotinLa idx, ?_⟩
    have hsum : sumSizes L1 + t.size ≤ sumSizes (L1 ++ t :: La) := by
      rw [sumSizes_append, sumSizes_cons]
      omega
    have := Nat.mul_le_mul_right a.entitiesPerChunk hsum
    rw [Nat.add_mul] at this
    exact this
  have htsz : t.size * dst + t.size ≤ t.size * a.entitiesPerChunk := by
    have h1 : t.size * (dst + 1) ≤ t.size * a.entitiesPerChunk :=
      Nat.mul_le_mul_left t.size hepc1
    rw [Nat.mul_add, Nat.mul_one] at h1
    exact h1
  unfold copyComponents
  rw [hsplit, List.foldl_append]
  show (t :: L2).foldl (copyStep a src dst) (L1.foldl (copyStep a src dst) d) _ = _
  rw [List.foldl_cons]
  rw [copyFold_frame a src dst _ L2 _ ?frameL2]
  case frameL2 =>
    intro c2 hc2 so do_ hso hdo
    rcases hgco_L2 c2 hc2 with ⟨b2, hgco, hb2⟩
    rw [hgco dst] at hdo
    have hdoeq : do_ = b2 + c2.size * dst := by
      injection hdo with h
      exact h.symm
    intro hcon
    omega
  rw [copyStep_hit a src dst _ t _ _ (hgco_t src) (hgco_t dst) _ (by constructor <;> omega)]
  have harith : sumSizes L1 * a.entitiesPerChunk + t.size * dst + j -
      (sumSizes L1 * a.entitiesPerChunk + t.size * dst) +
      (sumSizes L1 * a.entitiesPerChunk + t.size * src) =
      sumSizes L1 * a.entitiesPerChunk + t.size * src + j := by omega
  rw [harith]
  rw [copyFold_frame a src dst _ L1 d ?frameL1]
  case frameL1 =>
    intro c1 hc1 so do_ hso hdo
    rcases hgco_L1 c1 hc1 with ⟨b1, hgco, hb1⟩
    rw [hgco dst] at hdo
    have hdoeq : do_ = b1 + c1.size * dst := by
      injection hdo with h
      exact h.symm
    have hc1bound : c1.size * dst + c1.size ≤ c1.size * a.entitiesPerChunk := by
      have h1 : c1.size * (dst + 1) ≤ c1.size * a.entitiesPerChunk :=
        Nat.mul_le_mul_left c1.size hepc1
      rw [Nat.mul_add, Nat.mul_one] at h1
      exact h1
    intro hcon
    omega

/-- Replacing an archetype with one having the same component list keeps
every archetype's component ids intact. -/
theorem archNodup_set_preserving (u : EntityManager) (h : ArchNodup u) (k : Nat)
    (na : Archetype) (t : EntityManager)
    (ht : t.archetypes = u.archetypes.set k na)
    (hc : na.components = (getArch u k).components) :
    ArchNodup t := by
  intro j hj
  rw [ht, List.length_set] at hj
  show ((t.archetypes.getD j emptyArchetype).components.map (fun c => c.id)).Nodup
  rw [ht]
  by_cases hkj : k = j
  · subst hkj
    by_cases hk : k < u.archetypes.length
    · rw [LH.getD_set_self _ _ _ _ hk, hc]
      exact h k hk
    · rw [List.set_eq_of_length_le (Nat.le_of_not_lt hk)]
      exact h k hj
  · rw [LH.getD_set_ne _ _ _ _ _ hkj]
    exact h j hj

theorem archNodup_insert (u : EntityManager) (h : ArchNodup u)
    (aid ci id : Nat) (rest : List Nat) :
    ArchNodup (insertEntityState u aid ci id rest) :=
  archNodup_set_preserving u h aid _ _ rfl rfl

theorem archNodup_alloc (u : EntityManager) (h : ArchNodup u) (aid : Nat) :
    ArchNodup (u.AllocateChunk aid) :=
  archNodup_set_preserving u h aid _ _ rfl rfl

theorem archNodup_create (s : EntityManager) (h : ArchNodup s) (aid : Nat) :
    ArchNodup (s.CreateEntity aid).1 := by
  by_cases hq : s.availableEntities = []
  · unfold EntityManager.CreateEntity
    rw [if_pos hq]
    exact h
  · by_cases ha : s.archetypes.length ≤ aid
    · unfold EntityManager.CreateEntity
      rw [if_neg hq, if_pos ha]
      exact h
    · have ha' : aid < s.archetypes.length := Nat.not_le.mp ha
      cases hf : findFreeChunk (getArch s aid).chunks with
      | some ci =>
        rw [createEntity_eq_found s aid ci hq ha' hf]
        exact archNodup_insert s h aid ci _ _
      | none =>
        rw [createEntity_eq_alloc s aid hq ha' hf]
        exact archNodup_insert _ (archNodup_alloc s h aid) aid _ _ _

theorem archNodup_destroy (s : EntityManager) (h : ArchNodup s) (e : Nat) :
    ArchNodup (s.DestroyEntity e) := by
  by_cases hm : MAX_ENTITIES ≤ e
  · unfold EntityManager.DestroyEntity
    rw [if_pos hm]
    exact h
  · by_cases hv : (s.GetLocation e).valid = false
    · unfold EntityManager.DestroyEntity
      rw [if_neg hm, if_pos hv]
      exact h
    · by_cases hl : (s.GetLocation e).indexInChunk =
          (chunkAt s (s.GetLocation e).archetypeId (s.GetLocation e).chunkIndex).header.count - 1
      · rw [destroyEntity_eq_last s e hm hv hl]
        exact archNodup_set_preserving s h (s.GetLocation e).archetypeId _ _ rfl rfl
      · rw [destroyEntity_eq_swap s e hm hv hl]
        exact archNodup_set_preserving s h (s.GetLocation e).archetypeId _ _ rfl rfl

theorem archNodup_register (s : EntityManager) (h : ArchNodup s)
    (comps : List ComponentInfo) (hc : (comps.map (fun c => c.id)).Nodup) :
    ArchNodup (s.RegisterArchetype comps).1 := by
  unfold EntityManager.RegisterArchetype
  cases hl : s.signatureToArchetype.lookup (EntityManager.ComputeSignature comps) with
  | some i =>
    simp only [hl]
    exact h
  | none =>
    simp only [hl]
    have hmid : ArchNodup { s with
        archetypes := s.archetypes ++ [mkArchetype s.archetypes.length comps],
        signatureToArchetype := (EntityManager.ComputeSignature comps, s.archetypes.length) ::
          s.signatureToArchetype } := by
      intro aid ha
      show (((s.archetypes ++ [mkArchetype s.archetypes.length comps]).getD aid
        emptyArchetype).components.map (fun c => c.id)).Nodup
      have halen : aid < s.archetypes.length + 1 := by
        have h2 : aid < (s.archetypes ++ [mkArchetype s.archetypes.length comps]).length := ha
        rw [List.length_append] at h2
        simpa using h2
      rcases Nat.lt_or_ge aid s.archetypes.length with h1 | h1
      · rw [LH.getD_append_left _ _ _ _ h1]
        exact h aid h1
      · have haid : aid = s.archetypes.length := by omega
        subst haid
        rw [LH.getD_append_last]
        exact hc
    exact archNodup_set_preserving _ hmid s.archetypes.length _ _ rfl rfl

theorem archNodup_applyOp (s : EntityManager) (h : ArchNodup s) (op : Op)
    (hop : GoodOp op) : ArchNodup (applyOp s op) := by
  cases op with
  | register comps => exact archNodup_register s h comps hop
  | create aid => exact archNodup_create s h aid
  | destroy e => exact archNodup_destroy s h e

theorem archNodup_runOps (s : EntityManager) (h : ArchNodup s) (ops : List Op)
    (hops : ∀ op ∈ ops, GoodOp op) : ArchNodup (runOps s ops) := by
  induction ops generalizing s with
  | nil => exact h
  | cons op rest ih =>
    exact ih _ (archNodup_applyOp s h op (hops op (List.mem_cons_self op rest)))
      (fun o ho => hops o (List.mem_cons_of_mem op ho))

theorem archNodup_init : ArchNodup initManager := by
  intro aid ha
  simp [initManager] at ha

theorem archNodup_reachableGood (s : EntityManager) (hs : ReachableGood s) :
    ArchNodup s := by
  rcases hs with ⟨ops, hops, rfl⟩
  exact archNodup_runOps initManager archNodup_init ops hops

theorem inv_reachableGood (s : EntityManager) (hs : ReachableGood s) :
    ManagerInv s := by
  rcases hs with ⟨ops, _, rfl⟩
  exact inv_reachable ops

theorem getComponentData_eq (s : EntityManager) (entity compId : Nat)
    (hm : ¬ MAX_ENTITIES ≤ entity)
    (hv : ¬ (s.GetLocation entity).valid = false)
    (off : Nat)
    (hoff : (getArch s (s.GetLocation entity).archetypeId).GetComponentOffset compId
      (s.GetLocation entity).indexInChunk = some off) :
    s.GetComponentData entity compId =
      some { mem := ((getArch s (s.GetLocation entity).archetypeId).chunks.getD
        (s.GetLocation entity).chunkIndex emptyChunk).data, off := off } := by
  simp only [EntityManager.GetComponentData, if_neg hm, if_neg hv]
  rw [hoff]

/-- C1: swap-remove correctness: destroying a living entity E that is not the
last occupant of its chunk relocates the entity from the chunk's last slot
into E's former slot: its location's indexInChunk becomes E's former index,
the chunk's entityIds at that index names it, and for every component of the
archetype the bytes readable via GetComponentData afterwards equal the bytes
readable before the destroy. -/
theorem swap_remove_correct (s : EntityManager) (E : Nat)
    (hs : ReachableGood s)
    (hvE : (s.GetLocation E).valid = true)
    (hnl : ¬ (s.GetLocation E).indexInChunk =
      (chunkAt s (s.GetLocation E).archetypeId (s.GetLocation E).chunkIndex).header.count - 1) :
    (((s.DestroyEntity E).GetLocation (swapMoved s E)).indexInChunk
        = (s.GetLocation E).indexInChunk) ∧
    ((chunkAt (s.DestroyEntity E) (s.GetLocation E).archetypeId
        (s.GetLocation E).chunkIndex).entityIds.getD
        (s.GetLocation E).indexInChunk 0 = swapMoved s E) ∧
    ∀ c ∈ (getArch s (s.GetLocation E).archetypeId).components, ∃ p q : BytePtr,
      s.GetComponentData (swapMoved s E) c.id = some p ∧
      (s.DestroyEntity E).GetComponentData (swapMoved s E) c.id = some q ∧
      ∀ j, j < c.size → q.mem (q.off + j) = p.mem (p.off + j) := by
  have hInv := inv_reachableGood s hs
  have hND0 := archNodup_reachableGood s hs
  have hE : E < MAX_ENTITIES := by
    by_contra hcon
    have hoob : s.GetLocation E = invalidLocation := by
      show s.entityLocations.getD E invalidLocation = invalidLocation
      exact LH.getD_oob _ _ _ (by rw [hInv.locLen]; omega)
    rw [hoob] at hvE
    simp [invalidLocation] at hvE
  have hmE : ¬ MAX_ENTITIES ≤ E := by omega
  have hvF : ¬ (s.GetLocation E).valid = false := by
    rw [hvE]
    simp
  rw [destroyEntity_eq_swap s E hmE hvF hnl]
  simp only [swapMoved]
  rcases hInv.validLoc E hE hvE with ⟨ha, hci, hd, hide⟩
  set aid := (s.GetLocation E).archetypeId with haid
  set ci := (s.GetLocation E).chunkIndex with hcid
  set d := (s.GetLocation E).indexInChunk with hdd
  set A := getArch s aid with hA
  set ch := chunkAt s aid ci with hch
  have hidslen : ch.entityIds.length = ch.header.count := hInv.idsLen aid ha ci hci
  have hcount1 : 1 ≤ ch.header.count := by omega
  set lastIndex := ch.header.count - 1 with hlast
  have hdlt : d < lastIndex := by omega
  set moved := ch.entityIds.getD lastIndex 0 with hmoved
  have hlastlt : lastIndex < ch.header.count := by omega
  have hmvres := hInv.resolve aid ha ci hci lastIndex hlastlt
  have hmvMAX : moved < MAX_ENTITIES := hmvres.1
  have hmvloc : s.GetLocation moved =
      ({ archetypeId := aid, chunkIndex := ci, indexInChunk := lastIndex, valid := true }) :=
    hmvres.2
  have hmv_ne_e : moved ≠ E := by
    intro hcon
    rw [hcon] at hmvloc
    have := congrArg EntityLocation.indexInChunk hmvloc
    rw [← hdd] at this
    simp at this
    omega
  have he_ne_mv : E ≠ moved := fun h => hmv_ne_e h.symm
  set ml1 : EntityLocation := ({ s.GetLocation moved with indexInChunk := d }) with hml1def
  have hml1 : ml1 =
      ({ archetypeId := aid, chunkIndex := ci, indexInChunk := d, valid := true }) := by
    rw [hml1def, hmvloc]
  set chunk2 : MemoryChunk := ({ ch with
    header.count := ch.header.count - 1,
    data := copyComponents A lastIndex d ch.data,
    entityIds := (ch.entityIds.set d moved).dropLast }) with hchunk2
  set newArch : Archetype := ({ A with chunks := A.chunks.set ci chunk2 }) with hnewArch
  set L1 := s.entityLocations.set moved ml1 with hL1
  have hL1len : L1.length = MAX_ENTITIES := by
    rw [hL1, List.length_set]
    exact hInv.locLen
  have hL1_e : L1.getD E invalidLocation = s.GetLocation E := by
    rw [hL1]
    exact LH.getD_set_ne _ _ _ _ _ hmv_ne_e
  set dead : EntityLocation := ({ s.GetLocation E with valid := false }) with hdead
  set t := destroySwapState s E with htdef
  have htarch : t.archetypes = s.archetypes.set aid newArch := rfl
  have htloc : t.entityLocations = L1.set E ({ L1.getD E invalidLocation with valid := false }) := rfl
  have htloc2 : t.entityLocations = L1.set E dead := by
    rw [htloc, hL1_e]
  have harch_new : getArch t aid = newArch := by
    show t.archetypes.getD aid emptyArchetype = newArch
    rw [htarch]
    exact LH.getD_set_self _ _ _ _ ha
  have hchunk_new : chunkAt t aid ci = chunk2 := by
    unfold chunkAt
    rw [harch_new, hnewArch]
    exact LH.getD_set_self _ _ _ _ hci
  have hloc_moved : t.GetLocation moved = ml1 := by
    show t.entityLocations.getD moved invalidLocation = ml1
    rw [htloc2]
    rw [LH.getD_set_ne _ _ _ _ _ he_ne_mv]
    rw [hL1]
    exact LH.getD_set_self _ _ _ _ (by rw [hInv.locLen]; exact hmvMAX)
  have hids2_getD : ∀ i, i < ch.header.count - 1 →
      chunk2.entityIds.getD i 0 = (ch.entityIds.set d moved).getD i 0 := by
    intro i hi
    rw [hchunk2]
    show ((ch.entityIds.set d moved).dropLast).getD i 0 = _
    refine LH.getD_dropLast _ _ _ ?_
    rw [List.length_set, hidslen]
    omega
  have hids2_d : chunk2.entityIds.getD d 0 = moved := by
    rw [hids2_getD d (by omega)]
    exact LH.getD_set_self _ _ _ _ (by rw [hidslen]; omega)
  have hndA : (A.components.map (fun c => c.id)).Nodup := hND0 aid ha
  have hcap : ch.header.capacity = A.entitiesPerChunk := hInv.capEq aid ha ci hci
  have hcle : ch.header.count ≤ max ch.header.capacity 1 := hInv.countLe aid ha ci hci
  have hse : lastIndex < A.entitiesPerChunk := by omega
  have hmMV : ¬ MAX_ENTITIES ≤ moved := by omega
  have hvMV : ¬ (s.GetLocation moved).valid = false := by
    rw [hmvloc]
    simp
  have hmva : (s.GetLocation moved).archetypeId = aid := by rw [hmvloc]
  have hmvc : (s.GetLocation moved).chunkIndex = ci := by rw [hmvloc]
  have hmvi : (s.GetLocation moved).indexInChunk = lastIndex := by rw [hmvloc]
  have hvMVt : ¬ (t.GetLocation moved).valid = false := by
    rw [hloc_moved, hml1]
    simp
  have hta : (t.GetLocation moved).archetypeId = aid := by rw [hloc_moved, hml1]
  have htc : (t.GetLocation moved).chunkIndex = ci := by rw [hloc_moved, hml1]
  have hti : (t.GetLocation moved).indexInChunk = d := by rw [hloc_moved, hml1]
  refine ⟨?_, ?_, ?_⟩
  · rw [hloc_moved, hml1]
  · rw [hchunk_new]
    exact hids2_d
  · intro c hc
    rcases List.append_of_mem hc with ⟨La, Lb, hLsplit⟩
    have hndS := hndA
    rw [hLsplit] at hndS
    rcases nodup_ids_split La Lb c hndS with ⟨hnotin, _, _⟩
    have hoffp : (getArch s (s.GetLocation moved).archetypeId).GetComponentOffset c.id
        (s.GetLocation moved).indexInChunk =
        some (sumSizes La * A.entitiesPerChunk + c.size * lastIndex) := by
      rw [hmva, hmvi, ← hA]
      exact gco_split A c La Lb hLsplit hnotin lastIndex
    have hp := getComponentData_eq s moved c.id hmMV hvMV _ hoffp
    rw [hmva, hmvc] at hp
    rw [show (getArch s aid).chunks.getD ci emptyChunk = ch from hch.symm] at hp
    have hoffq : (getArch t (t.GetLocation moved).archetypeId).GetComponentOffset c.id
        (t.GetLocation moved).indexInChunk =
        some (sumSizes La * A.entitiesPerChunk + c.size * d) := by
      rw [hta, hti, harch_new]
      show A.GetComponentOffset c.id d = _
      exact gco_split A c La Lb hLsplit hnotin d
    have hq := getComponentData_eq t moved c.id hmMV hvMVt _ hoffq
    rw [hta, htc] at hq
    rw [show (getArch t aid).chunks.getD ci emptyChunk = chunk2 from hchunk_new] at hq
    refine ⟨_, _, hp, hq, ?_⟩
    intro j hj
    show (copyComponents A lastIndex d ch.data)
        (sumSizes La * A.entitiesPerChunk + c.size * d + j) =
      ch.data (sumSizes La * A.entitiesPerChunk + c.size * lastIndex + j)
    exact copyComponents_reads A hndA lastIndex d hdlt hse c La Lb hLsplit ch.data j hj

/-- Witness for C1: after three creates in one archetype, entity 1 is valid
and not last in its chunk, and destroying it moves the last occupant down to
slot 1. -/
theorem swap_remove_correct_witness :
    ((runOps initManager swapWitnessOps).GetLocation 1).valid = true ∧
    ¬ ((runOps initManager swapWitnessOps).GetLocation 1).indexInChunk =
      (chunkAt (runOps initManager swapWitnessOps)
        ((runOps initManager swapWitnessOps).GetLocation 1).archetypeId
        ((runOps initManager swapWitnessOps).GetLocation 1).chunkIndex).header.count - 1 ∧
    (((runOps initManager swapWitnessOps).DestroyEntity 1).GetLocation
        (swapMoved (runOps initManager swapWitnessOps) 1)).indexInChunk =
      ((runOps initManager swapWitnessOps).GetLocation 1).indexInChunk := by
  have hrfl : runOps initManager swapWitnessOps =
      ((((initManager.RegisterArchetype [⟨5, 4, 4⟩]).1.CreateEntity 0).1.CreateEntity
        0).1.CreateEntity 0).1 := rfl
  have hav1 : (initManager.RegisterArchetype [⟨5, 4, 4⟩]).1.availableEntities =
      List.range MAX_ENTITIES := by
    rw [registerArchetype_avail]
    exact initManager_avail
  have hq1 : ¬ (initManager.RegisterArchetype [⟨5, 4, 4⟩]).1.availableEntities = [] := by
    rw [hav1]
    exact range_max_ne_nil
  have ha1 : 0 < (initManager.RegisterArchetype [⟨5, 4, 4⟩]).1.archetypes.length := by decide
  have hf1 : findFreeChunk (getArch (initManager.RegisterArchetype [⟨5, 4, 4⟩]).1 0).chunks =
      some 0 := by decide
  have hpair1 := createEntity_eq_found _ 0 0 hq1 ha1 hf1
  rw [hav1, headD_range_max, ← List.drop_one] at hpair1
  have hstep1 : ((initManager.RegisterArchetype [⟨5, 4, 4⟩]).1.CreateEntity 0).1 =
      insertEntityState (initManager.RegisterArchetype [⟨5, 4, 4⟩]).1 0 0 0
        (List.drop 1 (List.range MAX_ENTITIES)) := by
    rw [hpair1]
  set s2 := insertEntityState (initManager.RegisterArchetype [⟨5, 4, 4⟩]).1 0 0 0
    (List.drop 1 (List.range MAX_ENTITIES)) with hs2
  have hav2 : s2.availableEntities = List.drop 1 (List.range MAX_ENTITIES) := by
    rw [hs2, insertEntityState_avail]
  have hq2 : ¬ s2.availableEntities = [] := by
    rw [hav2]
    exact drop_range_max_ne_nil 1 (by decide)
  have ha2 : 0 < s2.archetypes.length := by
    rw [hs2]
    decide
  have hf2 : findFreeChunk (getArch s2 0).chunks = some 0 := by
    rw [hs2]
    decide
  have hpair2 := createEntity_eq_found s2 0 0 hq2 ha2 hf2
  rw [hav2, headD_drop_range 1 (by decide), List.tail_drop] at hpair2
  have hstep2 : (s2.CreateEntity 0).1 =
      insertEntityState s2 0 0 1 (List.drop 2 (List.range MAX_ENTITIES)) := by
    rw [hpair2]
  set s3 := insertEntityState s2 0 0 1 (List.drop 2 (List.range MAX_ENTITIES)) with hs3
  have hav3 : s3.availableEntities = List.drop 2 (List.range MAX_ENTITIES) := by
    rw [hs3, insertEntityState_avail]
  have hq3 : ¬ s3.availableEntities = [] := by
    rw [hav3]
    exact drop_range_max_ne_nil 2 (by decide)
  have ha3 : 0 < s3.archetypes.length := by
    rw [hs3, hs2]
    decide
  have hf3 : findFreeChunk (getArch s3 0).chunks = some 0 := by
    rw [hs3, hs2]
    decide
  have hpair3 := createEntity_eq_found s3 0 0 hq3 ha3 hf3
  rw [hav3, headD_drop_range 2 (by decide), List.tail_drop] at hpair3
  have hstep3 : (s3.CreateEntity 0).1 =
      insertEntityState s3 0 0 2 (List.drop 3 (List.range MAX_ENTITIES)) := by
    rw [hpair3]
  set s4 := insertEntityState s3 0 0 2 (List.drop 3 (List.range MAX_ENTITIES)) with hs4
  have hrun : runOps initManager swapWitnessOps = s4 := by
    rw [hrfl, hstep1, hstep2, hstep3]
  have hgood : ∀ op ∈ swapWitnessOps, GoodOp op := by decide
  have hreach : ReachableGood s4 := ⟨swapWitnessOps, hgood, hrun.symm⟩
  have hv4 : (s4.GetLocation 1).valid = true := by
    rw [hs4, hs3, hs2]
    decide
  have hnl4 : ¬ (s4.GetLocation 1).indexInChunk =
      (chunkAt s4 (s4.GetLocation 1).archetypeId
        (s4.GetLocation 1).chunkIndex).header.count - 1 := by
    rw [hs4, hs3, hs2]
    decide
  rw [hrun]
  exact ⟨hv4, hnl4, (swap_remove_correct s4 1 hreach hv4 hnl4).1⟩
